import Mathlib

/-!
Shallow embedding of the random-walk BSSRDF sampler implemented in
src/src/appleseed/renderer/modeling/bssrdf/randomwalkbssrdf.cpp
(class RandomWalkBSSRDF), together with proofs about the claims of the
specification.

Modelling conventions.

Floating-point values are modelled as real numbers.  The single place where
IEEE-754 special values are semantically load-bearing is the initial
free-flight distance: the source computes
sample_exponential_distribution(u, extinction[channel]) = -log(1-u)/sigma
without first excluding sigma = 0, and the resulting +inf / NaN values then
flow into the two comparisons ray_length <= distance (transmitted) and
distance < 0.5 * ray_length (outgoing_point_is_closer).  That division and
those two comparisons are modelled exactly by the type FVal below.  In the
walking loop the degenerate-channel check precedes the distance sampling, so
real-number division is used there.

External foundation helpers that belong to the appleseed repository but are
not part of the given source file are modelled from the specification:
clamp / clamp_low (section 4.1: clamp to an interval, clamp from below), rcp
(reciprocal), mix (section 4.4: linear interpolation), pass_rr (section 4.6:
continue with probability p given one uniform variate),
sample_exponential_distribution (section 4.3: d = -ln(1-u)/sigma_eff),
build_cdf_and_pdf and sample_cdf (section 4.4: discrete distribution over
channels proportional to the current throughput), and normalized_diffusion_s_mfp
(section 4.1: an abstract shape-parameter helper, kept as a function
parameter).  The Dwivedi phase function, the uniform sphere and cosine
hemisphere mappings, the shading-basis transform and the intersector are
black boxes at the interface boundary (sections 4.2 and 6) and are supplied
by an environment record.  The quasi-random stream is a sequence of reals
consumed in program order.
-/

namespace RandomWalk

noncomputable section

/-- 3D vector over the reals (foundation Vector3f / Vector3d). -/
structure Vec3 where
  x : ℝ
  y : ℝ
  z : ℝ

/-- Dot product. -/
def Vec3.dot (a b : Vec3) : ℝ := a.x * b.x + a.y * b.y + a.z * b.z

/-- Component-wise negation (unary minus on a vector). -/
def Vec3.neg (a : Vec3) : Vec3 := ⟨-a.x, -a.y, -a.z⟩

/-- The point origin + t * dir (ShadingRay::point_at). -/
def Vec3.pointAt (origin : Vec3) (t : ℝ) (dir : Vec3) : Vec3 :=
  ⟨origin.x + t * dir.x, origin.y + t * dir.y, origin.z + t * dir.z⟩

/-- Unit vectors, characterised by the dot product. -/
def Vec3.unit (a : Vec3) : Prop := Vec3.dot a a = 1

/-- Negation of the y component of the initial direction (source line 259). -/
def negY (a : Vec3) : Vec3 := ⟨a.x, -a.y, a.z⟩

/-- Modelled from the spec: foundation clamp(x, lo, hi) restricts x to the
interval from lo to hi. -/
def clamp (x lo hi : ℝ) : ℝ := if x < lo then lo else if hi < x then hi else x

/-- Modelled from the spec: foundation clamp_low(x, lo) restricts x from below. -/
def clamp_low (x lo : ℝ) : ℝ := if x < lo then lo else x

/-- Modelled from the spec: foundation rcp(x) = 1/x. -/
def rcp (x : ℝ) : ℝ := 1 / x

/-- Modelled from the spec: foundation mix(x, y, a) is the linear
interpolation from x to y with parameter a. -/
def mix (x y a : ℝ) : ℝ := x * (1 - a) + y * a

/-- Modelled from the spec: pass_rr(p, s) continues with probability p given
one uniform variate s in the unit interval. -/
def passRR (probability s : ℝ) : Bool := decide (s < probability)

/-- Modelled from the spec: sample_exponential_distribution(u, sigma) draws
d = -ln(1-u)/sigma (the exponential inverse CDF), as a real number.  Used in
the walking loop, where the degenerate-channel check has already excluded a
zero extinction in the sampling channel. -/
def sampleExpDist (u sigma : ℝ) : ℝ := -Real.log (1 - u) / sigma

/-- A floating-point value that may be an IEEE-754 special value. -/
inductive FVal where
  | fin (x : ℝ)
  | pinf
  | ninf
  | nan

/-- IEEE-754 division a / b with a zero (taken positively signed) divisor:
a/0 is +inf for a > 0, -inf for a < 0 and NaN for a = 0. -/
def fdiv (a b : ℝ) : FVal :=
  if b = 0 then (if 0 < a then FVal.pinf else if a < 0 then FVal.ninf else FVal.nan)
  else FVal.fin (a / b)

/-- Modelled from the spec: sample_exponential_distribution(u, sigma) with
IEEE-754 semantics for sigma = 0, as executed for the initial segment
(source line 279), where no degenerate-channel check precedes it. -/
def sampleExpDistF (u sigma : ℝ) : FVal := fdiv (-Real.log (1 - u)) sigma

/-- IEEE-754 comparison r <= d: true against +inf, false against -inf or NaN. -/
def leF (r : ℝ) : FVal → Bool
  | FVal.fin x => decide (r ≤ x)
  | FVal.pinf => true
  | FVal.ninf => false
  | FVal.nan => false

/-- IEEE-754 comparison d < r: false against +inf or NaN, true against -inf. -/
def ltF : FVal → ℝ → Bool
  | FVal.fin x, r => decide (x < r)
  | FVal.pinf, _ => false
  | FVal.ninf, _ => true
  | FVal.nan, _ => false

/-- Extraction of the finite part, with a junk value for specials; only
consumed by black-box interfaces (ray origins) on special paths. -/
def FVal.toReal : FVal → ℝ
  | FVal.fin x => x
  | _ => 0

variable {N : ℕ}

/-- Modelled from the spec: the channel pdf built by build_cdf_and_pdf, the
discrete distribution over spectral channels proportional to the current
throughput values. -/
def channelPdf (v : Fin N → ℝ) : Fin N → ℝ := fun i => v i / ∑ j, v j

/-- Modelled from the spec: the channel cdf built by build_cdf_and_pdf. -/
def channelCdf (v : Fin N → ℝ) : Fin N → ℝ := fun k => ∑ j ∈ Finset.Iic k, channelPdf v j

/-- Modelled from the spec: sample_cdf draws the first channel whose cdf
value exceeds the variate. -/
def sampleCdf (cdf : Fin N → ℝ) (u : ℝ) : Option (Fin N) :=
  (List.finRange N).find? fun i => decide (u < cdf i)

/-- max_value of a spectrum: the largest channel value. -/
def maxValue [NeZero N] (v : Fin N → ℝ) : ℝ :=
  Finset.univ.sup' ⟨0, Finset.mem_univ 0⟩ v

/-- Folding addition over the channel list is the channel sum (the C++
accumulation loops are left folds over the channel range). -/
theorem foldl_add_finRange (f : Fin N → ℝ) :
    (List.finRange N).foldl (fun acc i => acc + f i) 0 = ∑ i, f i := by
  have h : ∀ (l : List (Fin N)) (a : ℝ),
      l.foldl (fun acc i => acc + f i) a = a + (l.map f).sum := by
    intro l
    induction l with
    | nil => intro a; simp
    | cons b t ih => intro a; simp [List.foldl_cons, ih, add_assoc]
  rw [h, Fin.sum_univ_def]
  simp

/-!
Optical-property preprocessor: RandomWalkBSSRDF::prepare_inputs and its
helper functions (source lines 124-201).
-/

/-- albedo_from_reflectance (source lines 198-201). -/
def albedo_from_reflectance (r : ℝ) : ℝ :=
  1 - Real.exp (r * (-5.09406 + r * (2.61188 - 4.31805 * r)))

/-- compute_rcp_diffusion_length_low_albedo (source lines 161-173). -/
def compute_rcp_diffusion_length_low_albedo (albedo : ℝ) : ℝ :=
  let a := rcp albedo
  let b := Real.exp (-2 * a)
  let x0 : ℝ := 1
  let x1 : ℝ := a * 4 - 1
  let x2 : ℝ := a * (a * 24 - 12) + 1
  let x3 : ℝ := a * (a * (a * 512 - 384) + 72) - 3
  1 - 2 * b * (x0 + b * (x1 + b * (x2 + b * x3)))

/-- compute_rcp_diffusion_length_high_albedo (source lines 175-188). -/
def compute_rcp_diffusion_length_high_albedo (albedo : ℝ) : ℝ :=
  let a := 1 - albedo
  let b := Real.sqrt (3 * a)
  b * (1 + a * (-0.4 + a * (-0.0685714286 + a * (-0.016 + a * -0.0024638218))))

/-- compute_rcp_diffusion_length (source lines 190-196): clamp the albedo to
the interval from 0 to 0.999 and branch at 0.56. -/
def compute_rcp_diffusion_length (albedo : ℝ) : ℝ :=
  let a := clamp albedo 0 0.999
  if a < 0.56 then compute_rcp_diffusion_length_low_albedo a
  else compute_rcp_diffusion_length_high_albedo a

/-- The claim's reading of reciprocal_diffusion_length: branch at 0.56 with no
clamping (stated for comparison with the source function). -/
def rcp_diffusion_length_claim (albedo : ℝ) : ℝ :=
  if albedo < 0.56 then compute_rcp_diffusion_length_low_albedo albedo
  else compute_rcp_diffusion_length_high_albedo albedo

/-- Per-channel optical properties precomputed by prepare_inputs
(RandomWalkBSSRDFInputValues::Precomputed). -/
structure OpticalProps (N : ℕ) where
  albedo : Fin N → ℝ
  extinction : Fin N → ℝ
  scattering : Fin N → ℝ
  rcp_diffusion_length : Fin N → ℝ

/-- The user-facing input values consumed by prepare_inputs. -/
structure InputValues (N : ℕ) where
  reflectance : Fin N → ℝ
  reflectance_multiplier : ℝ
  mfp : Fin N → ℝ
  mfp_multiplier : ℝ

/-- prepare_inputs (source lines 124-159).  The normalized-diffusion shape
parameter helper normalized_diffusion_s_mfp is external to the source file
and kept as the abstract parameter s_mfp.  Returns the precomputed optical
properties together with the clamped reflectance and mean free path stored
back into the input block. -/
def prepare_inputs (s_mfp : ℝ → ℝ) (v : InputValues N) :
    OpticalProps N × (Fin N → ℝ) × (Fin N → ℝ) :=
  let refl1 := fun i => v.reflectance i * v.reflectance_multiplier
  let mfp1 := fun i => v.mfp i * v.mfp_multiplier
  let refl := fun i => clamp (refl1 i) 0.001 0.999
  let mfp := fun i => clamp_low (mfp1 i) 1.0e-6
  let albedo := fun i => albedo_from_reflectance (refl i)
  let extinction := fun i => rcp (mfp i * s_mfp (refl i))
  ⟨{ albedo := albedo
     extinction := extinction
     scattering := fun i => albedo i * extinction i
     rcp_diffusion_length := fun i => min (compute_rcp_diffusion_length (albedo i)) 0.99 },
   refl, mfp⟩

/-!
The random-walk driver: RandomWalkBSSRDF::sample (source lines 231-451) with
its helpers compute_transmission_classical_sampling (lines 453-471),
compute_mis_dwivedi_sampling (lines 473-500) and test_rr (lines 203-224).
-/

/-- Result of one intersector trace: validity (hit_surface), hit distance and
geometric normal of the hit record. -/
structure Hit where
  valid : Bool
  dist : ℝ
  geometric_normal : Vec3

/-- The external collaborators of one sample call: the quasi-random stream
(consumed in program order), the cosine-hemisphere and uniform-sphere
mappings, the shading-basis transform, the intersector (the initial
unbounded trace and the per-iteration bounded traces, the latter indexed by
the iteration counter), the Dwivedi phase function (constructed from a
diffusion length, with sample and evaluate), and the geometry of the
outgoing point. -/
structure Env (N : ℕ) where
  rng : ℕ → ℝ
  hemisphere_cosine : ℝ × ℝ → Vec3
  basis_transform : Vec3 → Vec3
  trace_initial : Vec3 → Hit
  trace : ℕ → Vec3 → Vec3 → ℝ → Hit
  sphere_uniform : ℝ × ℝ → Vec3
  dwivedi_sample : ℝ → Vec3 → ℝ × ℝ → Vec3
  dwivedi_eval : ℝ → Vec3 → Vec3 → ℝ
  outgoing_point : Vec3
  outgoing_normal : Vec3

/-- The fixed probability of classical sampling (source line 250). -/
def classical_sampling_prob : ℝ := 0.1

/-- test_rr (source lines 203-224): one uniform variate, survival
probability min(max_value(value), 0.99), continuation divides the
throughput by the survival probability. -/
def test_rr [NeZero N] (env : Env N) (k : ℕ) (value : Fin N → ℝ) : Option (Fin N → ℝ) :=
  let s := env.rng k
  let scattering_prob := min (maxValue value) 0.99
  if passRR scattering_prob s then some (fun i => value i / scattering_prob) else none

/-- compute_transmission_classical_sampling (source lines 453-471): writes
the per-channel transmission and accumulates the classical MIS density. -/
def compute_transmission_classical_sampling (distance : ℝ)
    (extinction channel_pdf : Fin N → ℝ) (transmitted : Bool) :
    (Fin N → ℝ) × ℝ :=
  let transmission : Fin N → ℝ := fun i =>
    let t := Real.exp (-distance * extinction i)
    if transmitted then t else t * extinction i
  ⟨transmission,
   (List.finRange N).foldl (fun mis_base i => mis_base + transmission i * channel_pdf i) 0⟩

/-- compute_mis_dwivedi_sampling (source lines 473-500).  Note that the
cosine is a scalar argument supplied by the caller; it is not recomputed
from the slab normal argument. -/
def compute_mis_dwivedi_sampling (env : Env N) (distance : ℝ)
    (extinction rcp_diffusion_length : Fin N → ℝ) (cosine : ℝ)
    (channel_pdf : Fin N → ℝ) (transmitted : Bool) (slab_normal incoming : Vec3) : ℝ :=
  ((List.finRange N).foldl (fun mis_base i =>
      let effective_extinction := extinction i * (1 - cosine * rcp_diffusion_length i)
      let distance_prob :=
        (if transmitted then 1 else effective_extinction) *
          Real.exp (-distance * effective_extinction)
      let direction_prob := env.dwivedi_eval (rcp (rcp_diffusion_length i)) slab_normal incoming
      mis_base + distance_prob * channel_pdf i * direction_prob) 0) * (4 * Real.pi)

/-- Mutable state of the walking loop at the top of one iteration.  The
constants fixed before the loop (source lines 305-312: the bias strategy
probability, the two slab normals and the selected slab normal) are carried
in the state; the loop body reads them and writes them back unchanged. -/
structure LoopState (N : ℕ) where
  value : Fin N → ℝ
  nIteration : ℕ
  transmitted : Bool
  current_point : Vec3
  rngIdx : ℕ
  hit_dist : ℝ
  bias_strategy_prob : ℝ
  near_slab_normal : Vec3
  far_slab_normal : Vec3
  slab_normal : Vec3

/-- Terminal outcome of the walking loop. -/
inductive WalkOutcome (N : ℕ) where
  | exited (s : LoopState N)
  | lost_max_iterations
  | lost_degenerate (n : ℕ)
  | rr_terminated (n : ℕ)

/-- Result of one loop iteration: a terminal failure or the next state. -/
inductive StepRes (N : ℕ) where
  | fail (outcome : WalkOutcome N)
  | next (s : LoopState N)

/-!
The loop body (source lines 314-422) is decomposed into named projections
of the pre-iteration state; loop_step assembles them in program order.  The
random stream is consumed in the order of the source: one optional variate
for Russian Roulette, one for the channel, one for the strategy choice, two
for the direction, one for the distance.
-/

/-- The incremented iteration counter of the current iteration (source
line 316). -/
def step_n (s : LoopState N) : ℕ := s.nIteration + 1

/-- Whether Russian Roulette is consulted this iteration (source line 319,
MinRRIteration = 8). -/
def step_rr_engaged (s : LoopState N) : Bool := decide (8 < step_n s)

/-- The Russian Roulette result for this iteration, when engaged. -/
def step_rr_result [NeZero N] (env : Env N) (s : LoopState N) : Option (Fin N → ℝ) :=
  if step_rr_engaged s then test_rr env s.rngIdx s.value else some s.value

/-- Index of the first variate drawn after the optional RR variate. -/
def step_rng_base (s : LoopState N) : ℕ :=
  if step_rr_engaged s then s.rngIdx + 1 else s.rngIdx

/-- The throughput after the optional RR adjustment (junk fallback on the
RR-terminated path, which produces no next state). -/
def step_value0 [NeZero N] (env : Env N) (s : LoopState N) : Fin N → ℝ :=
  (step_rr_result env s).getD s.value

/-- The channel pdf of this iteration (source line 326). -/
def step_pdf [NeZero N] (env : Env N) (s : LoopState N) : Fin N → ℝ :=
  channelPdf (step_value0 env s)

/-- The sampling channel of this iteration (source lines 327-330). -/
def step_channel [NeZero N] (env : Env N) (s : LoopState N) : Fin N :=
  (sampleCdf (channelCdf (step_value0 env s)) (env.rng (step_rng_base s))).getD 0

/-- Whether Dwivedi (biased) sampling is used this iteration (source
line 335). -/
def step_is_biased (env : Env N) (s : LoopState N) : Bool :=
  decide (classical_sampling_prob < env.rng (step_rng_base s + 1))

/-- The two direction variates of this iteration (source lines 338-339). -/
def step_dir_u (env : Env N) (s : LoopState N) : ℝ × ℝ :=
  (env.rng (step_rng_base s + 2), env.rng (step_rng_base s + 3))

/-- The sampled direction of this iteration (source lines 340-349). -/
def step_incoming [NeZero N] (env : Env N) (props : OpticalProps N) (s : LoopState N) : Vec3 :=
  if step_is_biased env s then
    env.dwivedi_sample (rcp (props.rcp_diffusion_length (step_channel env s)))
      s.slab_normal (step_dir_u env s)
  else env.sphere_uniform (step_dir_u env s)

/-- The cosine between the sampled direction and the slab normal (source
line 365). -/
def step_cosine [NeZero N] (env : Env N) (props : OpticalProps N) (s : LoopState N) : ℝ :=
  Vec3.dot (step_incoming env props s) s.slab_normal

/-- The effective extinction used for distance sampling (source
lines 367-369). -/
def step_effective_extinction [NeZero N] (env : Env N) (props : OpticalProps N)
    (s : LoopState N) : ℝ :=
  if step_is_biased env s then
    props.extinction (step_channel env s) *
      (1 - step_cosine env props s * props.rcp_diffusion_length (step_channel env s))
  else props.extinction (step_channel env s)

/-- The sampled free-flight distance of this iteration (source line 370). -/
def step_sampled_distance [NeZero N] (env : Env N) (props : OpticalProps N)
    (s : LoopState N) : ℝ :=
  sampleExpDist (env.rng (step_rng_base s + 4)) (step_effective_extinction env props s)

/-- The trace of this iteration, bounded by the sampled distance (source
lines 373-378). -/
def step_hit [NeZero N] (env : Env N) (props : OpticalProps N) (s : LoopState N) : Hit :=
  env.trace (step_n s) s.current_point (step_incoming env props s)
    (step_sampled_distance env props s)

/-- Whether this iteration terminated at the surface (source line 379). -/
def step_transmitted [NeZero N] (env : Env N) (props : OpticalProps N) (s : LoopState N) : Bool :=
  (step_hit env props s).valid

/-- The segment length used for the MIS densities: the hit distance when the
segment terminated at the surface, the sampled distance otherwise (source
lines 381-385). -/
def step_distance [NeZero N] (env : Env N) (props : OpticalProps N) (s : LoopState N) : ℝ :=
  if step_transmitted env props s then (step_hit env props s).dist
  else step_sampled_distance env props s

/-- The per-channel transmission of this iteration (source lines 388-394). -/
def step_transmission [NeZero N] (env : Env N) (props : OpticalProps N) (s : LoopState N) :
    Fin N → ℝ :=
  (compute_transmission_classical_sampling (step_distance env props s) props.extinction
    (step_pdf env s) (step_transmitted env props s)).1

/-- The classical MIS density of this iteration (source lines 389-394). -/
def step_mis_classical [NeZero N] (env : Env N) (props : OpticalProps N) (s : LoopState N) : ℝ :=
  (compute_transmission_classical_sampling (step_distance env props s) props.extinction
    (step_pdf env s) (step_transmitted env props s)).2

/-- The near-slab Dwivedi MIS density of this iteration (source
lines 395-403); the cosine argument is the one of line 365. -/
def step_mis_dwivedi_near [NeZero N] (env : Env N) (props : OpticalProps N)
    (s : LoopState N) : ℝ :=
  compute_mis_dwivedi_sampling env (step_distance env props s) props.extinction
    props.rcp_diffusion_length (step_cosine env props s) (step_pdf env s)
    (step_transmitted env props s) s.near_slab_normal (step_incoming env props s)

/-- The far-slab Dwivedi MIS density of this iteration (source
lines 404-412); the cosine argument is the one of line 365. -/
def step_mis_dwivedi_far [NeZero N] (env : Env N) (props : OpticalProps N)
    (s : LoopState N) : ℝ :=
  compute_mis_dwivedi_sampling env (step_distance env props s) props.extinction
    props.rcp_diffusion_length (step_cosine env props s) (step_pdf env s)
    (step_transmitted env props s) s.far_slab_normal (step_incoming env props s)

/-- The combined MIS density of this iteration (source lines 413-420). -/
def step_mis_denom [NeZero N] (env : Env N) (props : OpticalProps N) (s : LoopState N) : ℝ :=
  mix (mix (step_mis_dwivedi_far env props s) (step_mis_dwivedi_near env props s)
      s.bias_strategy_prob)
    (step_mis_classical env props s) classical_sampling_prob

/-- One iteration of the walking loop (source lines 314-422). -/
def loop_step [NeZero N] (env : Env N) (props : OpticalProps N) (s : LoopState N) : StepRes N :=
  if 64 < step_n s then StepRes.fail WalkOutcome.lost_max_iterations
  else if (step_rr_result env s).isNone then
    StepRes.fail (WalkOutcome.rr_terminated (step_n s))
  else if props.scattering (step_channel env s) = 0 ∨ step_value0 env s (step_channel env s) = 0 then
    StepRes.fail (WalkOutcome.lost_degenerate (step_n s))
  else
    StepRes.next
      { value := fun i =>
          step_value0 env s i * props.albedo i *
            (step_transmission env props s i * rcp (step_mis_denom env props s))
        nIteration := step_n s
        transmitted := step_transmitted env props s
        current_point := Vec3.pointAt s.current_point (step_sampled_distance env props s)
          (step_incoming env props s)
        rngIdx := step_rng_base s + 5
        hit_dist := if step_transmitted env props s then (step_hit env props s).dist else s.hit_dist
        bias_strategy_prob := s.bias_strategy_prob
        near_slab_normal := s.near_slab_normal
        far_slab_normal := s.far_slab_normal
        slab_normal := s.slab_normal }

/-- The walking loop, by fuel recursion; the iteration cap of the loop body
makes the result independent of any fuel above 65 (walk_loop_fuel_stable). -/
def walk_loop_fuel [NeZero N] (env : Env N) (props : OpticalProps N) :
    ℕ → LoopState N → WalkOutcome N
  | 0, _ => WalkOutcome.lost_max_iterations
  | fuel + 1, s =>
    if s.transmitted then WalkOutcome.exited s
    else match loop_step env props s with
      | StepRes.fail outcome => outcome
      | StepRes.next s2 => walk_loop_fuel env props fuel s2

/-- The walking loop of sample (source lines 314-422). -/
def walk_loop [NeZero N] (env : Env N) (props : OpticalProps N) (s : LoopState N) :
    WalkOutcome N :=
  walk_loop_fuel env props 66 s

/-!
Initialization (source lines 240-312), exit weighting (lines 424-431) and
the assembled sample entry point.
-/

/-- The initial walk direction (source lines 256-260): a cosine-hemisphere
sample with negated y component, transformed by the shading basis of the
outgoing point. -/
def initial_dir (env : Env N) : Vec3 :=
  env.basis_transform (negY (env.hemisphere_cosine (env.rng 0, env.rng 1)))

/-- The channel chosen for the initial distance sample (source
lines 268-275); the throughput is all ones at this point. -/
def initial_channel [NeZero N] (env : Env N) : Fin N :=
  (sampleCdf (channelCdf fun _ => (1 : ℝ)) (env.rng 2)).getD 0

/-- The initial free-flight distance (source lines 277-280), with IEEE-754
semantics: the extinction of the chosen channel may be zero here. -/
def initial_distanceF [NeZero N] (env : Env N) (props : OpticalProps N) : FVal :=
  sampleExpDistF (env.rng 3) (props.extinction (initial_channel env))

/-- The initial trace of the ray until it reaches the surface from inside
(source lines 282-287). -/
def initial_hit (env : Env N) : Hit := env.trace_initial (initial_dir env)

/-- Whether the initial sampled distance is less than half the initial chord
length (outgoing_point_is_closer, source line 308). -/
def initial_closer [NeZero N] (env : Env N) (props : OpticalProps N) : Bool :=
  ltF (initial_distanceF env props) (0.5 * (initial_hit env).dist)

/-- Initialization of the walk (source lines 240-312): fails when the
initial ray escapes; otherwise applies the MIS correction of the first,
classical-only segment (note that compute_transmission_classical_sampling
overwrites the throughput with the transmission spectrum through its output
argument, line 297, before the division by the density at line 298) and
fixes the bias strategy probability and the slab normals. -/
def init_state [NeZero N] (env : Env N) (props : OpticalProps N) : Option (LoopState N) :=
  let hit := initial_hit env
  if hit.valid = false then none
  else
    let ray_length := hit.dist
    let distF := initial_distanceF env props
    let transmitted := leF ray_length distF
    let pdf := channelPdf (fun _ => (1 : ℝ))
    let tc := compute_transmission_classical_sampling
      (if transmitted then ray_length else distF.toReal) props.extinction pdf transmitted
    some
      { value := fun i => tc.1 i * rcp tc.2
        nIteration := 0
        transmitted := transmitted
        current_point := Vec3.pointAt env.outgoing_point distF.toReal (initial_dir env)
        rngIdx := 4
        hit_dist := ray_length
        bias_strategy_prob :=
          Real.exp (-props.extinction (initial_channel env) * ray_length * 0.5)
        near_slab_normal := env.outgoing_normal
        far_slab_normal := Vec3.neg hit.geometric_normal
        slab_normal :=
          if initial_closer env props then Vec3.neg hit.geometric_normal
          else env.outgoing_normal }

/-- The user-controlled scattering-order weights. -/
structure Weights where
  zero_scattering_weight : ℝ
  single_scattering_weight : ℝ
  multiple_scattering_weight : ℝ

/-- The post-walk clamp of the throughput to the interval from 0 to 2
(source line 424). -/
def post_walk_value (s : LoopState N) : Fin N → ℝ := fun i => clamp (s.value i) 0 2

/-- The scattering-order weighting of the final throughput (source
lines 426-431), preserving the statement structure of the source: an
isolated conditional for the zero-scattering weight, then a conditional
with an else branch for the single- and multiple-scattering weights. -/
def apply_scattering_order_weights (w : Weights) (n_iteration : ℕ) (v : Fin N → ℝ) :
    Fin N → ℝ :=
  let v1 := if n_iteration = 1 then fun i => v i * w.zero_scattering_weight else v
  if n_iteration = 2 then fun i => v1 i * w.single_scattering_weight
  else fun i => v1 i * w.multiple_scattering_weight

/-- Outcome of one sample call before exit weighting: none when the initial
ray escapes, otherwise the walk outcome. -/
def sample_outcome [NeZero N] (env : Env N) (props : OpticalProps N) :
    Option (WalkOutcome N) :=
  (init_state env props).map (walk_loop env props)

/-- Result of a successful sample call: the final throughput and the number
of loop iterations walked. -/
structure SampleResult (N : ℕ) where
  value : Fin N → ℝ
  nIteration : ℕ

/-- RandomWalkBSSRDF::sample (source lines 231-451): some result exactly
when the function returns true.  The exit handoff (side flip and BSDF
sampling at the incoming point, lines 433-448) involves only external
collaborators and does not modify the BSSRDF throughput. -/
def sample [NeZero N] (env : Env N) (props : OpticalProps N) (w : Weights) :
    Option (SampleResult N) :=
  match sample_outcome env props with
  | some (WalkOutcome.exited s) =>
      some ⟨apply_scattering_order_weights w s.nIteration (post_walk_value s), s.nIteration⟩
  | _ => none

/-!
Closed-form channel sums for the two accumulation loops of the MIS
functions.
-/

/-- The classical MIS accumulation loop in closed form. -/
theorem compute_transmission_classical_sampling_mis (d : ℝ) (ext pdf : Fin N → ℝ)
    (tr : Bool) :
    (compute_transmission_classical_sampling d ext pdf tr).2
      = ∑ i, Real.exp (-(d * ext i)) * (if tr then 1 else ext i) * pdf i := by
  unfold compute_transmission_classical_sampling
  show (List.finRange N).foldl
      (fun mis_base i => mis_base +
        (if tr then Real.exp (-d * ext i) else Real.exp (-d * ext i) * ext i) * pdf i) 0 = _
  rw [foldl_add_finRange
    (fun i => (if tr then Real.exp (-d * ext i) else Real.exp (-d * ext i) * ext i) * pdf i)]
  refine Finset.sum_congr rfl fun i _ => ?_
  cases tr <;> simp [neg_mul]

/-- The per-channel transmission written by
compute_transmission_classical_sampling, in closed form. -/
theorem compute_transmission_classical_sampling_transmission (d : ℝ)
    (ext pdf : Fin N → ℝ) (tr : Bool) (i : Fin N) :
    (compute_transmission_classical_sampling d ext pdf tr).1 i
      = Real.exp (-(d * ext i)) * (if tr then 1 else ext i) := by
  unfold compute_transmission_classical_sampling
  cases tr <;> simp [neg_mul]

/-- The Dwivedi MIS accumulation loop in closed form. -/
theorem compute_mis_dwivedi_sampling_eq (env : Env N) (d : ℝ)
    (ext kap : Fin N → ℝ) (c : ℝ) (pdf : Fin N → ℝ) (tr : Bool) (nrm inc : Vec3) :
    compute_mis_dwivedi_sampling env d ext kap c pdf tr nrm inc
      = (∑ i, (if tr then 1 else ext i * (1 - c * kap i))
          * Real.exp (-(d * (ext i * (1 - c * kap i))))
          * env.dwivedi_eval (rcp (kap i)) nrm inc * pdf i) * (4 * Real.pi) := by
  unfold compute_mis_dwivedi_sampling
  rw [foldl_add_finRange
    (fun i => (if tr then 1 else ext i * (1 - c * kap i))
      * Real.exp (-d * (ext i * (1 - c * kap i))) * pdf i
      * env.dwivedi_eval (rcp (kap i)) nrm inc)]
  congr 1
  refine Finset.sum_congr rfl fun i _ => ?_
  rw [neg_mul]
  ring

/-- C8.  After any traced segment of length d, the classical MIS density
equals the sum over spectral channels of exp(-d * extinction i) * channel
pdf i, where each term is additionally multiplied by extinction i exactly
when the segment did not terminate at a surface, and the same function
simultaneously writes the per-channel transmission (with the same extinction
factor rule) into its output spectrum; in particular the classical density
used by every iteration of the walking loop has this closed form at the
traced segment length. -/
theorem C8_classical_mis {N : ℕ} [NeZero N] :
    (∀ (d : ℝ) (ext pdf : Fin N → ℝ) (tr : Bool),
      (compute_transmission_classical_sampling d ext pdf tr).2
        = ∑ i, Real.exp (-(d * ext i)) * (if tr then 1 else ext i) * pdf i)
    ∧ (∀ (d : ℝ) (ext pdf : Fin N → ℝ) (tr : Bool) (i : Fin N),
      (compute_transmission_classical_sampling d ext pdf tr).1 i
        = Real.exp (-(d * ext i)) * (if tr then 1 else ext i))
    ∧ (∀ (env : Env N) (props : OpticalProps N) (s : LoopState N),
      step_mis_classical env props s
        = ∑ i, Real.exp (-(step_distance env props s * props.extinction i))
            * (if step_transmitted env props s then 1 else props.extinction i)
            * step_pdf env s i) := by
  refine ⟨fun d ext pdf tr => compute_transmission_classical_sampling_mis d ext pdf tr,
    fun d ext pdf tr i => compute_transmission_classical_sampling_transmission d ext pdf tr i,
    fun env props s => ?_⟩
  exact compute_transmission_classical_sampling_mis _ _ _ _

/-- Witness for C8 at a concrete input. -/
theorem C8_classical_mis_witness :
    (compute_transmission_classical_sampling (N := 1) 0 (fun _ => 1) (fun _ => 1) true).2
      = ∑ i : Fin 1, Real.exp (-((0 : ℝ) * 1)) * (if true then 1 else 1) * 1 :=
  (C8_classical_mis (N := 1)).1 0 (fun _ => 1) (fun _ => 1) true

/-!
Properties of the optical-property preprocessor (claims C4 and C7).
-/

/-- Numeric bound used for the albedo range: exp 6.81 < 1000. -/
theorem exp_681_lt_1000 : Real.exp 6.81 < 1000 := by
  have h7 : Real.exp 7 < 2.7182818286 ^ 7 := by
    have h1 : Real.exp 1 < 2.7182818286 := Real.exp_one_lt_d9
    have he : Real.exp 7 = Real.exp 1 ^ 7 := by
      rw [← Real.exp_nat_mul]
      norm_num
    rw [he]
    gcongr
  have hneg : Real.exp (-0.19) ≤ 1 / 1.19 := by
    have h := Real.add_one_le_exp (0.19 : ℝ)
    rw [Real.exp_neg]
    rw [inv_le_comm₀ (Real.exp_pos _) (by norm_num)]
    linarith
  have hsplit : Real.exp 6.81 = Real.exp 7 * Real.exp (-0.19) := by
    rw [← Real.exp_add]
    norm_num
  have hpos : (0 : ℝ) < Real.exp 7 := Real.exp_pos 7
  calc Real.exp 6.81 = Real.exp 7 * Real.exp (-0.19) := hsplit
    _ ≤ Real.exp 7 * (1 / 1.19) := by
        exact mul_le_mul_of_nonneg_left hneg hpos.le
    _ < 2.7182818286 ^ 7 * (1 / 1.19) := by
        have : (0 : ℝ) < 1 / 1.19 := by norm_num
        exact mul_lt_mul_of_pos_right h7 this
    _ < 1000 := by norm_num

/-- The cubic polynomial inside the albedo fit is negative and bounded below
by -6.81 on the clamped reflectance range. -/
theorem albedo_poly_bounds (r : ℝ) (h1 : 0.001 ≤ r) (h2 : r ≤ 0.999) :
    -6.81 ≤ r * (-5.09406 + r * (2.61188 - 4.31805 * r))
      ∧ r * (-5.09406 + r * (2.61188 - 4.31805 * r)) < 0 := by
  have hb_low : -6.81 ≤ -5.09406 + r * (2.61188 - 4.31805 * r) := by
    have hp : (0 : ℝ) ≤ (1.00155 - r) * (r + 0.39675) :=
      mul_nonneg (by linarith) (by linarith)
    nlinarith [hp, h1]
  have hb_neg : -5.09406 + r * (2.61188 - 4.31805 * r) < 0 := by
    nlinarith [sq_nonneg r]
  constructor
  · nlinarith [mul_nonneg (by linarith : (0:ℝ) ≤ 1 - r)
      (by linarith : (0:ℝ) ≤ -(-5.09406 + r * (2.61188 - 4.31805 * r)))]
  · exact mul_neg_of_pos_of_neg (by linarith) hb_neg

/-- On the clamped reflectance range the albedo lies strictly between 0 and
0.999, so the internal clamp of compute_rcp_diffusion_length is transparent. -/
theorem albedo_from_reflectance_range (r : ℝ) (h1 : 0.001 ≤ r) (h2 : r ≤ 0.999) :
    0 < albedo_from_reflectance r ∧ albedo_from_reflectance r < 0.999 := by
  obtain ⟨hlo, hneg⟩ := albedo_poly_bounds r h1 h2
  unfold albedo_from_reflectance
  constructor
  · have : Real.exp (r * (-5.09406 + r * (2.61188 - 4.31805 * r))) < 1 :=
      Real.exp_lt_one_iff.2 hneg
    linarith
  · have hmono : Real.exp (-6.81) ≤ Real.exp (r * (-5.09406 + r * (2.61188 - 4.31805 * r))) :=
      Real.exp_le_exp.2 hlo
    have hinv : (0.001 : ℝ) < Real.exp (-6.81) := by
      rw [Real.exp_neg]
      rw [lt_inv_comm₀ (by norm_num) (Real.exp_pos _)]
      calc Real.exp 6.81 < 1000 := exp_681_lt_1000
        _ = (0.001 : ℝ)⁻¹ := by norm_num
    linarith

/-- clamp coincides with the max/min normal form on a well-ordered interval. -/
theorem clamp_eq_max_min (x lo hi : ℝ) (h : lo ≤ hi) :
    clamp x lo hi = max lo (min x hi) := by
  unfold clamp
  rcases lt_trichotomy x lo with hx | hx | hx
  · rw [if_pos hx, min_eq_left (le_trans hx.le h), max_eq_left hx.le]
  · subst hx
    rw [if_neg (lt_irrefl x), if_neg (not_lt.2 h), min_eq_left h, max_eq_right le_rfl]
  · rw [if_neg (not_lt.2 hx.le)]
    rcases le_or_lt x hi with hxh | hxh
    · rw [if_neg (not_lt.2 hxh), min_eq_left hxh, max_eq_right hx.le]
    · rw [if_pos hxh, min_eq_right hxh.le, max_eq_right h]

/-- clamp_low coincides with max. -/
theorem clamp_low_eq_max (x lo : ℝ) : clamp_low x lo = max lo x := by
  unfold clamp_low
  rcases lt_or_le x lo with hx | hx
  · rw [if_pos hx, max_eq_left hx.le]
  · rw [if_neg (not_lt.2 hx), max_eq_right hx]

/-- clamp is the identity inside the interval. -/
theorem clamp_eq_self (x lo hi : ℝ) (h1 : lo ≤ x) (h2 : x ≤ hi) : clamp x lo hi = x := by
  unfold clamp
  rw [if_neg (not_lt.2 h1), if_neg (not_lt.2 h2)]

/-- On the albedo range produced by prepare_inputs, the source function
compute_rcp_diffusion_length agrees with the claim's unclamped branch
formula. -/
theorem compute_rcp_diffusion_length_eq_claim (a : ℝ) (h1 : 0 ≤ a) (h2 : a ≤ 0.999) :
    compute_rcp_diffusion_length a = rcp_diffusion_length_claim a := by
  unfold compute_rcp_diffusion_length rcp_diffusion_length_claim
  rw [clamp_eq_self a 0 0.999 h1 h2]

/-- C4.  prepare_inputs first multiplies reflectance and mean free path by
their scalar multipliers, clamps reflectance to the interval from 0.001 to
0.999 and mean free path from below by 1e-6, and then for every spectral
channel computes the albedo by the cubic-exponential fit of the clamped
reflectance, the extinction as the reciprocal of the clamped mean free path
times the normalized-diffusion shape parameter of the clamped reflectance,
the scattering as albedo times extinction, and the reciprocal diffusion
length as the minimum of 0.99 and the branch formula (low-albedo series
below 0.56, high-albedo polynomial scaled by sqrt(3(1-albedo)) otherwise)
of the albedo. -/
theorem C4_prepare_inputs {N : ℕ} (s_mfp : ℝ → ℝ) (v : InputValues N) (i : Fin N) :
    (prepare_inputs s_mfp v).2.1 i
        = max 0.001 (min (v.reflectance i * v.reflectance_multiplier) 0.999)
    ∧ (prepare_inputs s_mfp v).2.2 i = max 1.0e-6 (v.mfp i * v.mfp_multiplier)
    ∧ (prepare_inputs s_mfp v).1.albedo i
        = 1 - Real.exp ((prepare_inputs s_mfp v).2.1 i *
            (-5.09406 + (prepare_inputs s_mfp v).2.1 i *
              (2.61188 - 4.31805 * (prepare_inputs s_mfp v).2.1 i)))
    ∧ (prepare_inputs s_mfp v).1.extinction i
        = ((prepare_inputs s_mfp v).2.2 i * s_mfp ((prepare_inputs s_mfp v).2.1 i))⁻¹
    ∧ (prepare_inputs s_mfp v).1.scattering i
        = (prepare_inputs s_mfp v).1.albedo i * (prepare_inputs s_mfp v).1.extinction i
    ∧ (prepare_inputs s_mfp v).1.rcp_diffusion_length i
        = min (rcp_diffusion_length_claim ((prepare_inputs s_mfp v).1.albedo i)) 0.99 := by
  have hrange : 0.001 ≤ clamp (v.reflectance i * v.reflectance_multiplier) 0.001 0.999
      ∧ clamp (v.reflectance i * v.reflectance_multiplier) 0.001 0.999 ≤ 0.999 := by
    rw [clamp_eq_max_min _ _ _ (by norm_num)]
    constructor
    · exact le_max_left _ _
    · exact max_le (by norm_num) (min_le_right _ _)
  have halb := albedo_from_reflectance_range _ hrange.1 hrange.2
  refine ⟨clamp_eq_max_min _ _ _ (by norm_num), clamp_low_eq_max _ _, rfl, ?_, rfl, ?_⟩
  · simp only [prepare_inputs]
    rw [rcp, one_div]
  · simp only [prepare_inputs]
    rw [compute_rcp_diffusion_length_eq_claim _ halb.1.le halb.2.le]

/-- C7.  For every reflectance r in the clamped interval from 0.001 to
0.999, albedo_from_reflectance r lies strictly between 0 and 1, and
albedo_from_reflectance is strictly monotonically increasing on that
interval. -/
theorem C7_albedo_monotone :
    (∀ r : ℝ, 0.001 ≤ r → r ≤ 0.999 →
      0 < albedo_from_reflectance r ∧ albedo_from_reflectance r < 1)
    ∧ ∀ r1 r2 : ℝ, 0.001 ≤ r1 → r1 < r2 → r2 ≤ 0.999 →
      albedo_from_reflectance r1 < albedo_from_reflectance r2 := by
  constructor
  · intro r h1 h2
    refine ⟨(albedo_from_reflectance_range r h1 h2).1, ?_⟩
    unfold albedo_from_reflectance
    have := Real.exp_pos (r * (-5.09406 + r * (2.61188 - 4.31805 * r)))
    linarith
  · intro r1 r2 h1 h12 h2
    unfold albedo_from_reflectance
    have hq : r1 * (-5.09406 + r1 * (2.61188 - 4.31805 * r1))
        - r2 * (-5.09406 + r2 * (2.61188 - 4.31805 * r2))
        = (r1 - r2) * (-5.09406 + 2.61188 * (r1 + r2)
            - 4.31805 * (r1 * r1 + r1 * r2 + r2 * r2)) := by ring
    have hqneg : -5.09406 + 2.61188 * (r1 + r2)
        - 4.31805 * (r1 * r1 + r1 * r2 + r2 * r2) < 0 := by
      nlinarith [sq_nonneg (r1 - r2), sq_nonneg (r1 + r2 - 0.40325)]
    have hgt : r2 * (-5.09406 + r2 * (2.61188 - 4.31805 * r2))
        < r1 * (-5.09406 + r1 * (2.61188 - 4.31805 * r1)) := by
      nlinarith [mul_pos_of_neg_of_neg (by linarith : r1 - r2 < 0) hqneg]
    have := Real.exp_lt_exp.2 hgt
    linarith

/-- Witness for C7 at concrete reflectance values. -/
theorem C7_albedo_monotone_witness :
    (0 < albedo_from_reflectance 0.5 ∧ albedo_from_reflectance 0.5 < 1)
    ∧ albedo_from_reflectance 0.1 < albedo_from_reflectance 0.2 :=
  ⟨C7_albedo_monotone.1 0.5 (by norm_num) (by norm_num),
   C7_albedo_monotone.2 0.1 0.2 (by norm_num) (by norm_num) (by norm_num)⟩

/-!
Structural facts about the walking loop.
-/

/-- A successful loop iteration increments the iteration counter and leaves
the pre-loop constants (bias strategy probability and the three slab-normal
fields) unchanged. -/
theorem loop_step_next_fields [NeZero N] (env : Env N) (props : OpticalProps N)
    (s s2 : LoopState N) (h : loop_step env props s = StepRes.next s2) :
    s2.nIteration = s.nIteration + 1
    ∧ s2.bias_strategy_prob = s.bias_strategy_prob
    ∧ s2.near_slab_normal = s.near_slab_normal
    ∧ s2.far_slab_normal = s.far_slab_normal
    ∧ s2.slab_normal = s.slab_normal := by
  unfold loop_step at h
  split_ifs at h with h1 h2 h3 h4 <;>
    first
    | exact StepRes.noConfusion h
    | (have h5 := StepRes.next.inj h; subst h5; exact ⟨rfl, rfl, rfl, rfl, rfl⟩)

/-- A successful loop iteration implies the iteration cap was not hit. -/
theorem loop_step_next_guard [NeZero N] (env : Env N) (props : OpticalProps N)
    (s s2 : LoopState N) (h : loop_step env props s = StepRes.next s2) :
    ¬64 < step_n s := by
  unfold loop_step at h
  split_ifs at h with h1 h2 h3 h4 <;>
    first
    | exact StepRes.noConfusion h
    | exact h1

/-- The throughput written by a successful loop iteration (source lines 352,
417, 421): the post-RR throughput times the albedo times the transmission
divided by the combined MIS density. -/
theorem loop_step_next_value [NeZero N] (env : Env N) (props : OpticalProps N)
    (s s2 : LoopState N) (h : loop_step env props s = StepRes.next s2) (i : Fin N) :
    s2.value i = step_value0 env s i * props.albedo i *
      (step_transmission env props s i * rcp (step_mis_denom env props s)) := by
  unfold loop_step at h
  split_ifs at h with h1 h2 h3 h4 <;>
    first
    | exact StepRes.noConfusion h
    | (have h5 := StepRes.next.inj h; subst h5; rfl)

/-- The walking-loop result is independent of the fuel once the fuel
dominates the distance to the iteration cap; together with the cap guard of
the loop body this shows the fuel value 66 used by walk_loop is exact. -/
theorem walk_loop_fuel_stable [NeZero N] (env : Env N) (props : OpticalProps N) :
    ∀ (fuel : ℕ) (s : LoopState N), 64 - s.nIteration < fuel →
      walk_loop_fuel env props fuel s = walk_loop_fuel env props (fuel + 1) s := by
  intro fuel
  induction fuel with
  | zero => intro s h; exact absurd h (Nat.not_lt_zero _)
  | succ f ih =>
    intro s h
    by_cases ht : s.transmitted
    · simp [walk_loop_fuel, ht]
    · rcases hstep : loop_step env props s with o | s2
      · simp [walk_loop_fuel, ht, hstep]
      · have hn := (loop_step_next_fields env props s s2 hstep).1
        have hguard := loop_step_next_guard env props s s2 hstep
        unfold step_n at hguard
        have hf : 64 - s2.nIteration < f := by omega
        simp only [walk_loop_fuel, ht, hstep, Bool.false_eq_true, if_false]
        exact ih s2 hf

/-- The step relation of the walking loop: one successful iteration from a
not-yet-transmitted state. -/
def StepRel [NeZero N] (env : Env N) (props : OpticalProps N) (s t : LoopState N) : Prop :=
  s.transmitted = false ∧ loop_step env props s = StepRes.next t

/-- C9.  On every successful walk, each channel of the final throughput lies
within the interval from 0 to 2 at the moment immediately after the loop
exits and the post-walk clamp is applied, before the scattering-order
weight is applied. -/
theorem C9_clamp_invariant {N : ℕ} [NeZero N] (env : Env N) (props : OpticalProps N)
    (s : LoopState N) (h : sample_outcome env props = some (WalkOutcome.exited s))
    (i : Fin N) : 0 ≤ post_walk_value s i ∧ post_walk_value s i ≤ 2 := by
  unfold post_walk_value clamp
  split_ifs with h1 h2
  · norm_num
  · norm_num
  · exact ⟨not_lt.1 h1, not_lt.1 h2⟩

/-!
Concrete environments used for witnesses and counterexamples.
-/

/-- A single-channel environment with a constant random stream: the initial
trace hits at distance 1 with normal (0,0,1); loop traces miss; the phase
function black boxes return the unit vector (0,0,1) and the constant
density 1. -/
def envConst (c : ℝ) : Env 1 where
  rng := fun _ => c
  hemisphere_cosine := fun _ => ⟨0, 0, 1⟩
  basis_transform := id
  trace_initial := fun _ => ⟨true, 1, ⟨0, 0, 1⟩⟩
  trace := fun _ _ _ _ => ⟨false, 1, ⟨0, 0, 1⟩⟩
  sphere_uniform := fun _ => ⟨0, 0, 1⟩
  dwivedi_sample := fun _ _ _ => ⟨0, 0, 1⟩
  dwivedi_eval := fun _ _ _ => 1
  outgoing_point := ⟨0, 0, 0⟩
  outgoing_normal := ⟨0, 0, 1⟩

/-- Single-channel optical properties of a standard medium: albedo 1/2,
extinction 1, scattering 1/2, reciprocal diffusion length 1/2. -/
def propsStd : OpticalProps 1 :=
  ⟨fun _ => 1 / 2, fun _ => 1, fun _ => 1 / 2, fun _ => 1 / 2⟩

/-- Single-channel optical properties with zero extinction in all channels
(and the scattering albedo * extinction = 0 precomputed accordingly). -/
def propsZeroExt : OpticalProps 1 :=
  ⟨fun _ => 1 / 2, fun _ => 0, fun _ => 0, fun _ => 1 / 2⟩

/-- A throwaway loop state used as an Option default. -/
def dummyState : LoopState 1 :=
  ⟨fun _ => 0, 0, false, ⟨0, 0, 0⟩, 0, 0, 0, ⟨0, 0, 0⟩, ⟨0, 0, 0⟩, ⟨0, 0, 0⟩⟩

/-!
Positivity invariant of the walking loop (claims C5 and C6).
-/

/-- Interface assumptions about the environment and the precomputed optical
properties: uniform variates lie in the half-open unit interval, the phase
function density is nonnegative and its samples are unit vectors (section
4.2), trace distances are nonnegative and geometric normals are unit
vectors (section 6), and the precomputed per-channel properties satisfy the
data-model ranges of section 3. -/
structure EnvOK {N : ℕ} (env : Env N) (props : OpticalProps N) : Prop where
  rng_nonneg : ∀ k, 0 ≤ env.rng k
  rng_lt_one : ∀ k, env.rng k < 1
  dwivedi_eval_nonneg : ∀ L nrm w, 0 ≤ env.dwivedi_eval L nrm w
  dwivedi_sample_unit : ∀ L nrm u, Vec3.unit (env.dwivedi_sample L nrm u)
  sphere_unit : ∀ u, Vec3.unit (env.sphere_uniform u)
  trace_initial_dist_nonneg : ∀ d, 0 ≤ (env.trace_initial d).dist
  trace_initial_normal_unit : ∀ d, Vec3.unit (env.trace_initial d).geometric_normal
  outgoing_normal_unit : Vec3.unit env.outgoing_normal
  extinction_pos : ∀ i, 0 < props.extinction i
  albedo_pos : ∀ i, 0 < props.albedo i
  kappa_nonneg : ∀ i, 0 ≤ props.rcp_diffusion_length i
  kappa_le : ∀ i, props.rcp_diffusion_length i ≤ 0.99

/-- Loop-state invariant: strictly positive throughput, bias strategy
probability in the unit interval, unit slab normal. -/
def StateOK (s : LoopState N) : Prop :=
  (∀ i, 0 < s.value i) ∧ 0 ≤ s.bias_strategy_prob ∧ s.bias_strategy_prob ≤ 1
    ∧ Vec3.unit s.slab_normal

/-- The dot product of unit vectors lies in the closed interval from -1
to 1. -/
theorem Vec3.dot_le_one_of_unit (a b : Vec3) (ha : Vec3.unit a) (hb : Vec3.unit b) :
    Vec3.dot a b ≤ 1 ∧ -1 ≤ Vec3.dot a b := by
  simp only [Vec3.unit, Vec3.dot] at ha hb ⊢
  constructor
  · nlinarith [sq_nonneg (a.x - b.x), sq_nonneg (a.y - b.y), sq_nonneg (a.z - b.z)]
  · nlinarith [sq_nonneg (a.x + b.x), sq_nonneg (a.y + b.y), sq_nonneg (a.z + b.z)]

/-- Unit vectors are preserved by negation. -/
theorem Vec3.unit_neg (a : Vec3) (h : Vec3.unit a) : Vec3.unit (Vec3.neg a) := by
  simp only [Vec3.unit, Vec3.dot, Vec3.neg] at h ⊢
  nlinarith [h]

/-- The maximum channel of a strictly positive spectrum is strictly
positive. -/
theorem maxValue_pos [NeZero N] (v : Fin N → ℝ) (h : ∀ i, 0 < v i) : 0 < maxValue v :=
  lt_of_lt_of_le (h 0) (Finset.le_sup' v (Finset.mem_univ 0))

/-- The channel pdf of a strictly positive spectrum is strictly positive. -/
theorem channelPdf_pos [NeZero N] (v : Fin N → ℝ) (h : ∀ i, 0 < v i) (i : Fin N) :
    0 < channelPdf v i :=
  div_pos (h i) (Finset.sum_pos (fun j _ => h j) ⟨0, Finset.mem_univ 0⟩)

/-- The classical MIS density is strictly positive for positive extinction
and channel pdf. -/
theorem mis_classical_pos [NeZero N] (d : ℝ) (ext pdf : Fin N → ℝ) (tr : Bool)
    (hext : ∀ i, 0 < ext i) (hpdf : ∀ i, 0 < pdf i) :
    0 < (compute_transmission_classical_sampling d ext pdf tr).2 := by
  rw [compute_transmission_classical_sampling_mis]
  refine Finset.sum_pos (fun i _ => ?_) ⟨0, Finset.mem_univ 0⟩
  refine mul_pos (mul_pos (Real.exp_pos _) ?_) (hpdf i)
  cases tr
  · exact hext i
  · norm_num

/-- The per-channel transmission is strictly positive for positive
extinction. -/
theorem transmission_pos [NeZero N] (d : ℝ) (ext pdf : Fin N → ℝ) (tr : Bool)
    (hext : ∀ i, 0 < ext i) (i : Fin N) :
    0 < (compute_transmission_classical_sampling d ext pdf tr).1 i := by
  rw [compute_transmission_classical_sampling_transmission]
  refine mul_pos (Real.exp_pos _) ?_
  cases tr
  · exact hext i
  · norm_num

/-- The Dwivedi effective extinction is strictly positive when the cosine
lies in the closed unit interval and the reciprocal diffusion length lies
between 0 and 0.99. -/
theorem effective_extinction_pos (e k c : ℝ) (he : 0 < e) (hk0 : 0 ≤ k) (hk9 : k ≤ 0.99)
    (hc1 : c ≤ 1) : 0 < e * (1 - c * k) := by
  refine mul_pos he ?_
  nlinarith [mul_le_mul_of_nonneg_right hc1 hk0]

/-- The Dwivedi MIS density is nonnegative under the interface
assumptions. -/
theorem mis_dwivedi_nonneg [NeZero N] (env : Env N) (d : ℝ) (ext kap : Fin N → ℝ)
    (c : ℝ) (pdf : Fin N → ℝ) (tr : Bool) (nrm inc : Vec3)
    (hext : ∀ i, 0 ≤ ext i) (hk0 : ∀ i, 0 ≤ kap i) (hk9 : ∀ i, kap i ≤ 0.99)
    (hc1 : c ≤ 1) (hpdf : ∀ i, 0 ≤ pdf i)
    (hdw : ∀ L n w, 0 ≤ env.dwivedi_eval L n w) :
    0 ≤ compute_mis_dwivedi_sampling env d ext kap c pdf tr nrm inc := by
  rw [compute_mis_dwivedi_sampling_eq]
  refine mul_nonneg (Finset.sum_nonneg fun i _ => ?_) (by positivity)
  have heff : 0 ≤ ext i * (1 - c * kap i) := by
    refine mul_nonneg (hext i) ?_
    nlinarith [mul_le_mul_of_nonneg_right hc1 (hk0 i), hk9 i]
  refine mul_nonneg (mul_nonneg (mul_nonneg ?_ (Real.exp_pos _).le) (hdw _ _ _)) (hpdf i)
  cases tr
  · exact heff
  · norm_num

/-- The direction sampled by one loop iteration is a unit vector. -/
theorem step_incoming_unit [NeZero N] (env : Env N) (props : OpticalProps N)
    (s : LoopState N) (hE : EnvOK env props) : Vec3.unit (step_incoming env props s) := by
  unfold step_incoming
  split_ifs
  · exact hE.dwivedi_sample_unit _ _ _
  · exact hE.sphere_unit _

/-- The throughput after the optional Russian Roulette adjustment stays
strictly positive. -/
theorem step_value0_pos [NeZero N] (env : Env N) (props : OpticalProps N)
    (s : LoopState N) (hv : ∀ i, 0 < s.value i) (i : Fin N) :
    0 < step_value0 env s i := by
  unfold step_value0 step_rr_result
  by_cases hrr : step_rr_engaged s
  · rw [if_pos hrr]
    unfold test_rr
    by_cases hp : passRR (min (maxValue s.value) 0.99) (env.rng s.rngIdx)
    · rw [if_pos hp]
      show 0 < s.value i / min (maxValue s.value) 0.99
      exact div_pos (hv i) (lt_min (maxValue_pos _ hv) (by norm_num))
    · rw [if_neg hp]
      exact hv i
  · rw [if_neg hrr]
    exact hv i

/-- The combined MIS density of one loop iteration is strictly positive on
states satisfying the invariant. -/
theorem step_mis_denom_pos [NeZero N] (env : Env N) (props : OpticalProps N)
    (s : LoopState N) (hE : EnvOK env props) (hS : StateOK s) :
    0 < step_mis_denom env props s := by
  obtain ⟨hv, hb0, hb1, hslab⟩ := hS
  have hv0 : ∀ i, 0 < step_value0 env s i := step_value0_pos env props s hv
  have hpdf : ∀ i, 0 < step_pdf env s i := fun i => channelPdf_pos _ hv0 i
  have hcos := Vec3.dot_le_one_of_unit _ _ (step_incoming_unit env props s hE) hslab
  have hclassical : 0 < step_mis_classical env props s :=
    mis_classical_pos _ _ _ _ hE.extinction_pos hpdf
  have hnear : 0 ≤ step_mis_dwivedi_near env props s :=
    mis_dwivedi_nonneg env _ _ _ _ _ _ _ _ (fun i => (hE.extinction_pos i).le)
      hE.kappa_nonneg hE.kappa_le hcos.1 (fun i => (hpdf i).le) hE.dwivedi_eval_nonneg
  have hfar : 0 ≤ step_mis_dwivedi_far env props s :=
    mis_dwivedi_nonneg env _ _ _ _ _ _ _ _ (fun i => (hE.extinction_pos i).le)
      hE.kappa_nonneg hE.kappa_le hcos.1 (fun i => (hpdf i).le) hE.dwivedi_eval_nonneg
  have hmixdw : 0 ≤ mix (step_mis_dwivedi_far env props s) (step_mis_dwivedi_near env props s)
      s.bias_strategy_prob := by
    unfold mix
    have h1 : 0 ≤ 1 - s.bias_strategy_prob := by linarith
    nlinarith [mul_nonneg hfar h1, mul_nonneg hnear hb0]
  unfold step_mis_denom mix classical_sampling_prob
  nlinarith [hmixdw, hclassical]

/-- One successful loop iteration preserves the loop-state invariant. -/
theorem loop_step_StateOK [NeZero N] (env : Env N) (props : OpticalProps N)
    (s s2 : LoopState N) (hE : EnvOK env props) (hS : StateOK s)
    (h : loop_step env props s = StepRes.next s2) : StateOK s2 := by
  obtain ⟨hv, hb0, hb1, hslab⟩ := hS
  have hfields := loop_step_next_fields env props s s2 h
  refine ⟨?_, ?_, ?_, ?_⟩
  · intro i
    rw [loop_step_next_value env props s s2 h i]
    have hdenom := step_mis_denom_pos env props s hE ⟨hv, hb0, hb1, hslab⟩
    have htr : 0 < step_transmission env props s i :=
      transmission_pos _ _ _ _ hE.extinction_pos i
    have hrcp : 0 < rcp (step_mis_denom env props s) := by
      unfold rcp
      positivity
    exact mul_pos (mul_pos (step_value0_pos env props s hv i) (hE.albedo_pos i))
      (mul_pos htr hrcp)
  · rw [hfields.2.1]; exact hb0
  · rw [hfields.2.1]; exact hb1
  · rw [hfields.2.2.2.2]; exact hslab

/-- The state produced by walk initialization satisfies the loop-state
invariant. -/
theorem init_state_StateOK [NeZero N] (env : Env N) (props : OpticalProps N)
    (s0 : LoopState N) (hE : EnvOK env props) (h : init_state env props = some s0) :
    StateOK s0 := by
  simp only [init_state] at h
  split_ifs at h with hvalid h1 h2 <;> try exact Option.noConfusion h
  all_goals rw [Option.some_inj] at h
  all_goals subst h
  all_goals
    refine ⟨fun i => mul_pos (transmission_pos _ props.extinction _ _ hE.extinction_pos i)
      (one_div_pos.2 (mis_classical_pos _ _ _ _ hE.extinction_pos
        (channelPdf_pos _ fun _ => one_pos))), Real.exp_nonneg _, ?_, ?_⟩
  all_goals
    try (show Real.exp (-props.extinction (initial_channel env) * (initial_hit env).dist * 0.5) ≤ 1
         rw [Real.exp_le_one_iff]
         have hd : 0 ≤ (initial_hit env).dist := hE.trace_initial_dist_nonneg (initial_dir env)
         nlinarith [mul_nonneg (hE.extinction_pos (initial_channel env)).le hd])
  all_goals
    first
    | exact Vec3.unit_neg _ (hE.trace_initial_normal_unit (initial_dir env))
    | exact hE.outgoing_normal_unit

/-- The loop-state invariant holds at every state reachable by the walking
loop. -/
theorem reach_StateOK [NeZero N] (env : Env N) (props : OpticalProps N)
    (s0 s : LoopState N) (hE : EnvOK env props) (h0 : StateOK s0)
    (hr : Relation.ReflTransGen (StepRel env props) s0 s) : StateOK s := by
  induction hr with
  | refl => exact h0
  | tail _ hbc ih => exact loop_step_StateOK env props _ _ hE ih hbc.2

/-- An Option with a value equals some of its getD extraction. -/
theorem option_isSome_eq_getD {α : Type _} (o : Option α) (d : α) (h : o.isSome = true) :
    o = some (o.getD d) := by
  cases o
  · exact absurd h (by simp)
  · rfl

/-- envConst environments always produce an initial state: the initial trace
hits. -/
theorem init_state_envConst_isSome (c : ℝ) (props : OpticalProps 1) :
    (init_state (envConst c) props).isSome = true := by
  simp [init_state, initial_hit, envConst]

/-- The interface assumptions hold for the concrete constant environment and
the standard medium. -/
theorem envConst_EnvOK (c : ℝ) (h0 : 0 ≤ c) (h1 : c < 1) : EnvOK (envConst c) propsStd := by
  refine ⟨fun k => ?_, fun k => ?_, fun L nrm w => ?_, fun L nrm u => ?_, fun u => ?_,
      fun d => ?_, fun d => ?_, ?_, fun i => ?_, fun i => ?_, fun i => ?_, fun i => ?_⟩ <;>
    simp [envConst, propsStd, Vec3.unit, Vec3.dot] <;> first | exact h0 | exact h1 | norm_num

/-- C5.  The Russian-Roulette test computes the survival probability
p = min(max_channel(throughput), 0.99) from the current throughput, draws
one uniform variate, fails exactly when the variate does not pass p, and on
continuation divides the throughput by p; the walking loop consults it only
once the iteration count exceeds 8, and at every loop-reachable state of a
walk started by init_state under the interface assumptions the survival
probability is strictly positive. -/
theorem C5_russian_roulette {N : ℕ} [NeZero N] :
    (∀ (env : Env N) (k : ℕ) (v : Fin N → ℝ),
      test_rr env k v = if env.rng k < min (maxValue v) 0.99
        then some (fun i => v i / min (maxValue v) 0.99) else none)
    ∧ (∀ (env : Env N) (props : OpticalProps N) (s : LoopState N) (n : ℕ),
        step_n s ≤ 8 → loop_step env props s ≠ StepRes.fail (WalkOutcome.rr_terminated n))
    ∧ (∀ (env : Env N) (props : OpticalProps N) (s0 s : LoopState N), EnvOK env props →
        init_state env props = some s0 → Relation.ReflTransGen (StepRel env props) s0 s →
        0 < min (maxValue s.value) 0.99) := by
  refine ⟨fun env k v => ?_, fun env props s n hn h => ?_, fun env props s0 s hE h0 hr => ?_⟩
  · simp only [test_rr, passRR]
    by_cases h : env.rng k < min (maxValue v) 0.99
    · rw [if_pos (decide_eq_true h), if_pos h]
    · rw [if_neg (by simpa using h), if_neg h]
  · have hrr : step_rr_result env s = some s.value := by
      unfold step_rr_result step_rr_engaged
      rw [if_neg (by simpa using not_lt.2 hn)]
    unfold loop_step at h
    split_ifs at h with g1 g2 g3 <;>
      first
      | exact StepRes.noConfusion h
      | exact WalkOutcome.noConfusion (StepRes.fail.inj h)
      | (rw [hrr] at g2; exact absurd g2 (by simp))
  · have hS := reach_StateOK env props s0 s hE (init_state_StateOK env props s0 hE h0) hr
    exact lt_min (maxValue_pos _ hS.1) (by norm_num)

/-- Witness for C5: the constant environment at c = 1/2 with the standard
medium, applied at the initial state itself. -/
theorem C5_russian_roulette_witness :
    0 < min (maxValue ((init_state (envConst (1 / 2)) propsStd).getD dummyState).value) 0.99 :=
  (C5_russian_roulette (N := 1)).2.2 (envConst (1 / 2)) propsStd
    ((init_state (envConst (1 / 2)) propsStd).getD dummyState)
    ((init_state (envConst (1 / 2)) propsStd).getD dummyState)
    (envConst_EnvOK (1 / 2) (by norm_num) (by norm_num))
    (option_isSome_eq_getD _ _ (init_state_envConst_isSome (1 / 2) propsStd))
    Relation.ReflTransGen.refl

/-!
Claim C10: the slab normal is selected once, before the walking loop.
-/

/-- C10.  Within one sample call the slab normal used for Dwivedi direction
sampling and for the cosine entering the effective extinction is fixed once
by initialization: it is the far-side normal (the negated geometric normal
of the initial hit) when the initial sampled scattering distance compares
less than half the initial chord length, and the near-side normal (the
geometric normal of the outgoing point) otherwise; every loop-reachable
state carries the same three normals, the Dwivedi sampler of every
iteration receives that fixed slab normal, and the effective extinction of
every iteration uses the cosine against it. -/
theorem C10_slab_normal_fixed {N : ℕ} [NeZero N] (env : Env N) (props : OpticalProps N)
    (s0 : LoopState N) (h : init_state env props = some s0) :
    (s0.near_slab_normal = env.outgoing_normal
      ∧ s0.far_slab_normal = Vec3.neg (initial_hit env).geometric_normal
      ∧ s0.slab_normal
        = if initial_closer env props then s0.far_slab_normal else s0.near_slab_normal)
    ∧ ∀ s, Relation.ReflTransGen (StepRel env props) s0 s →
        (s.slab_normal = s0.slab_normal ∧ s.near_slab_normal = s0.near_slab_normal
          ∧ s.far_slab_normal = s0.far_slab_normal)
        ∧ (step_is_biased env s = true →
            step_incoming env props s
              = env.dwivedi_sample (rcp (props.rcp_diffusion_length (step_channel env s)))
                  s0.slab_normal (step_dir_u env s))
        ∧ step_effective_extinction env props s
          = (if step_is_biased env s then
              props.extinction (step_channel env s) *
                (1 - Vec3.dot (step_incoming env props s) s0.slab_normal *
                  props.rcp_diffusion_length (step_channel env s))
            else props.extinction (step_channel env s)) := by
  constructor
  · simp only [init_state] at h
    split_ifs at h with hvalid h1 h2 <;> try exact Option.noConfusion h
    all_goals rw [Option.some_inj] at h
    all_goals subst h
    all_goals refine ⟨rfl, rfl, ?_⟩
    all_goals split_ifs <;> simp_all
  · intro s hr
    have hpres : s.slab_normal = s0.slab_normal ∧ s.near_slab_normal = s0.near_slab_normal
        ∧ s.far_slab_normal = s0.far_slab_normal := by
      induction hr with
      | refl => exact ⟨rfl, rfl, rfl⟩
      | tail _ hbc ih =>
        have hf := loop_step_next_fields env props _ _ hbc.2
        exact ⟨hf.2.2.2.2.trans ih.1, hf.2.2.1.trans ih.2.1, hf.2.2.2.1.trans ih.2.2⟩
    refine ⟨hpres, fun hb => ?_, ?_⟩
    · unfold step_incoming
      rw [if_pos hb, hpres.1]
    · unfold step_effective_extinction step_cosine
      rw [hpres.1]

/-- Witness for C10: the near-side normal recorded by initialization in the
concrete constant environment. -/
theorem C10_slab_normal_fixed_witness :
    ((init_state (envConst (1 / 2)) propsStd).getD dummyState).near_slab_normal
      = (envConst (1 / 2)).outgoing_normal :=
  (C10_slab_normal_fixed (envConst (1 / 2)) propsStd
    ((init_state (envConst (1 / 2)) propsStd).getD dummyState)
    (option_isSome_eq_getD _ _ (init_state_envConst_isSome (1 / 2) propsStd))).1.1

/-!
Claim C6: positivity of the sampled free-flight distance.
-/

/-- A loop state at the top of the first iteration with unit slab normals,
unit throughput and a not-yet-transmitted flag, used for concrete
evaluations of the loop body. -/
def stateUnit : LoopState 1 :=
  ⟨fun _ => 1, 0, false, ⟨0, 0, 0⟩, 0, 1, 1, ⟨0, 0, 1⟩, ⟨0, 0, 1⟩, ⟨0, 0, 1⟩⟩

/-- The sampled free-flight distance of a loop iteration is strictly
positive whenever the distance variate is strictly positive (and below 1),
and the Dwivedi effective extinction is strictly positive for every unit
direction; under the interface assumptions both hold for every iteration
whose distance variate is nonzero. -/
theorem step_sampled_distance_pos {N : ℕ} [NeZero N] (env : Env N) (props : OpticalProps N)
    (s : LoopState N) (hE : EnvOK env props) (hslab : Vec3.unit s.slab_normal)
    (hu : 0 < env.rng (step_rng_base s + 4)) :
    0 < step_effective_extinction env props s
    ∧ 0 < step_sampled_distance env props s
    ∧ ∀ (w : Vec3) (i : Fin N), Vec3.unit w →
        0 < props.extinction i
          * (1 - Vec3.dot w s.slab_normal * props.rcp_diffusion_length i) := by
  have heff : 0 < step_effective_extinction env props s := by
    unfold step_effective_extinction
    split_ifs
    · have hcos := Vec3.dot_le_one_of_unit _ _ (step_incoming_unit env props s hE) hslab
      exact effective_extinction_pos _ _ _ (hE.extinction_pos _)
        (hE.kappa_nonneg _) (hE.kappa_le _) hcos.1
    · exact hE.extinction_pos _
  refine ⟨heff, ?_, fun w i hw => ?_⟩
  · unfold step_sampled_distance sampleExpDist
    have h1 : 1 - env.rng (step_rng_base s + 4) < 1 := by linarith
    have h0 : 0 < 1 - env.rng (step_rng_base s + 4) := by
      have := hE.rng_lt_one (step_rng_base s + 4)
      linarith
    have hlog : Real.log (1 - env.rng (step_rng_base s + 4)) < 0 := Real.log_neg h0 h1
    exact div_pos (by linarith) heff
  · have hcos := Vec3.dot_le_one_of_unit _ _ hw hslab
    exact effective_extinction_pos _ _ _ (hE.extinction_pos i)
      (hE.kappa_nonneg i) (hE.kappa_le i) hcos.1

/-- The loop body run on the unit state of the standard medium with the
constant-zero random stream reaches the end of the iteration and produces a
next state. -/
theorem envConst0_step_next :
    ∃ s2, loop_step (envConst 0) propsStd stateUnit = StepRes.next s2 := by
  have hval : ∀ i, step_value0 (envConst 0) stateUnit i = 1 := by
    intro i
    simp [step_value0, step_rr_result, step_rr_engaged, step_n, stateUnit]
  have h64 : ¬(64 < step_n stateUnit) := by norm_num [step_n, stateUnit]
  have hrr : ¬((step_rr_result (envConst 0) stateUnit).isNone = true) := by
    simp [step_rr_result, step_rr_engaged, step_n, stateUnit]
  have hdeg : ¬(propsStd.scattering (step_channel (envConst 0) stateUnit) = 0
      ∨ step_value0 (envConst 0) stateUnit (step_channel (envConst 0) stateUnit) = 0) := by
    push_neg
    refine ⟨by norm_num [propsStd], ?_⟩
    rw [hval]
    norm_num
  unfold loop_step
  rw [if_neg h64, if_neg hrr, if_neg hdeg]
  exact ⟨_, rfl⟩

/-- C6.  Evaluation of the loop body at the failing input: with the standard
medium (extinction 1 > 0, reciprocal diffusion length 1/2 <= 0.99) and a
distance variate equal to 0 (the constant-zero random stream), the iteration
proceeds (the step produces a next state), yet its sampled free-flight
distance is exactly 0 and not strictly positive, so the asserted contract
of source line 371 is violated. -/
theorem C6_distance_zero_eval :
    step_sampled_distance (envConst 0) propsStd stateUnit = 0
    ∧ ¬0 < step_sampled_distance (envConst 0) propsStd stateUnit
    ∧ ∃ s2, loop_step (envConst 0) propsStd stateUnit = StepRes.next s2 := by
  have hb : step_is_biased (envConst 0) stateUnit = false := by
    norm_num [step_is_biased, step_rng_base, step_rr_engaged, step_n, stateUnit, envConst,
      classical_sampling_prob]
  have heff : step_effective_extinction (envConst 0) propsStd stateUnit = 1 := by
    simp [step_effective_extinction, hb, propsStd]
  have hdist : step_sampled_distance (envConst 0) propsStd stateUnit = 0 := by
    simp [step_sampled_distance, heff, sampleExpDist, envConst]
  exact ⟨hdist, by rw [hdist]; norm_num, envConst0_step_next⟩

/-!
Evaluation of the initialization phase for single-channel media.
-/

/-- In a single-channel medium the throughput after the initial MIS
correction is exactly 1: the transmission spectrum is divided by itself
times the (unit) channel pdf. -/
theorem value_init_one (d : ℝ) (ext : Fin 1 → ℝ) (tr : Bool) (i : Fin 1)
    (h : tr = false → ext 0 ≠ 0) :
    (compute_transmission_classical_sampling d ext (channelPdf fun _ => (1 : ℝ)) tr).1 i
      * rcp (compute_transmission_classical_sampling d ext (channelPdf fun _ => (1 : ℝ)) tr).2
      = 1 := by
  have hpdf : channelPdf (fun _ => (1 : ℝ)) = fun _ : Fin 1 => 1 := by
    funext j
    simp [channelPdf]
  have hi : i = 0 := Fin.eq_zero i
  subst hi
  rw [compute_transmission_classical_sampling_mis,
    compute_transmission_classical_sampling_transmission, hpdf, Fin.sum_univ_one, mul_one]
  have hA : Real.exp (-(d * ext 0)) * (if tr = true then (1 : ℝ) else ext 0) ≠ 0 := by
    refine mul_ne_zero (Real.exp_ne_zero _) ?_
    cases tr
    · simpa using h rfl
    · simp
  rw [rcp, mul_one_div, div_self hA]

/-- The initial state of a single-channel walk whose initial trace hits and
whose extinction is nonzero in the not-transmitted case: all fields in
closed form, with unit throughput. -/
theorem init_state_fields (env : Env 1) (props : OpticalProps 1)
    (hvalid : (initial_hit env).valid = true)
    (hne : leF (initial_hit env).dist (initial_distanceF env props) = false →
      props.extinction 0 ≠ 0) :
    ∃ s0, init_state env props = some s0
      ∧ s0.transmitted = leF (initial_hit env).dist (initial_distanceF env props)
      ∧ s0.nIteration = 0
      ∧ (∀ i, s0.value i = 1)
      ∧ s0.rngIdx = 4
      ∧ s0.bias_strategy_prob
        = Real.exp (-props.extinction (initial_channel env) * (initial_hit env).dist * 0.5)
      ∧ s0.near_slab_normal = env.outgoing_normal
      ∧ s0.far_slab_normal = Vec3.neg (initial_hit env).geometric_normal
      ∧ s0.slab_normal = (if initial_closer env props then
          Vec3.neg (initial_hit env).geometric_normal else env.outgoing_normal)
      ∧ s0.current_point
        = Vec3.pointAt env.outgoing_point (initial_distanceF env props).toReal (initial_dir env)
      ∧ s0.hit_dist = (initial_hit env).dist := by
  simp only [init_state]
  rw [if_neg (by rw [hvalid]; simp)]
  refine ⟨_, rfl, rfl, rfl, fun i => ?_, rfl, rfl, rfl, rfl, rfl, rfl, rfl⟩
  exact value_init_one _ _ _ i hne

/-- The walking loop exits immediately from a transmitted state. -/
theorem walk_loop_exited [NeZero N] (env : Env N) (props : OpticalProps N)
    (s : LoopState N) (h : s.transmitted = true) :
    walk_loop env props s = WalkOutcome.exited s := by
  unfold walk_loop
  show walk_loop_fuel env props (65 + 1) s = _
  simp only [walk_loop_fuel, h, if_true]

/-- The walking loop propagates the failure of its first iteration. -/
theorem walk_loop_first_fail [NeZero N] (env : Env N) (props : OpticalProps N)
    (s : LoopState N) (h : s.transmitted = false) (o : WalkOutcome N)
    (hs : loop_step env props s = StepRes.fail o) : walk_loop env props s = o := by
  unfold walk_loop
  show walk_loop_fuel env props (65 + 1) s = _
  simp only [walk_loop_fuel, h, hs, Bool.false_eq_true, if_false]

/-!
Claim C3: behaviour of a walk with zero extinction in all channels.
-/

/-- Concrete weights used to observe the weighting behaviour: zero 1/2,
single 1/3, multiple 1/4. -/
def wTest : Weights := ⟨1 / 2, 1 / 3, 1 / 4⟩

/-- The claim's weighting policy: exactly one of the three user weights,
selected by total walk length in traced segments (one segment for a walk
that exits on the initial trace). -/
def claim_order_weight (w : Weights) (segments : ℕ) : ℝ :=
  if segments = 1 then w.zero_scattering_weight
  else if segments = 2 then w.single_scattering_weight
  else w.multiple_scattering_weight


/-- With zero extinction in the sampling channel and a distance variate in
the open unit interval, the initial free-flight distance is IEEE positive
infinity. -/
theorem initial_distanceF_zero_ext_pos {N : ℕ} [NeZero N] (env : Env N)
    (props : OpticalProps N) (hext : props.extinction (initial_channel env) = 0)
    (hu : 0 < env.rng 3) (hu1 : env.rng 3 < 1) :
    initial_distanceF env props = FVal.pinf := by
  have hlog : Real.log (1 - env.rng 3) < 0 := Real.log_neg (by linarith) (by linarith)
  unfold initial_distanceF sampleExpDistF fdiv
  rw [hext, if_pos rfl, if_pos (by linarith)]

/-- With zero extinction in the sampling channel and a zero distance
variate, the initial free-flight distance is IEEE NaN. -/
theorem initial_distanceF_zero_ext_zero {N : ℕ} [NeZero N] (env : Env N)
    (props : OpticalProps N) (hext : props.extinction (initial_channel env) = 0)
    (hu : env.rng 3 = 0) : initial_distanceF env props = FVal.nan := by
  unfold initial_distanceF sampleExpDistF fdiv
  rw [hext, hu, if_pos rfl]
  norm_num

/-- Initialization produces a state whenever the initial trace hits, with
the transmitted flag given by the IEEE comparison of the chord length and
the initial distance. -/
theorem init_state_some {N : ℕ} [NeZero N] (env : Env N) (props : OpticalProps N)
    (hvalid : (initial_hit env).valid = true) :
    ∃ s0, init_state env props = some s0
      ∧ s0.transmitted = leF (initial_hit env).dist (initial_distanceF env props)
      ∧ s0.nIteration = 0 := by
  simp only [init_state]
  rw [if_neg (by rw [hvalid]; simp)]
  exact ⟨_, rfl, rfl, rfl⟩

/-- C3 (amended).  For a walk whose input optical properties have zero
extinction in all channels (and the scattering albedo times extinction,
hence zero, precomputed accordingly) and whose initial trace hits: when the
initial distance variate is strictly positive the initial distance is IEEE
positive infinity, the initial segment is transmitted, the walking loop
executes zero iterations and the walk succeeds as a zero-scattering path;
only when the distance variate is exactly zero (IEEE NaN distance) does the
loop run exactly one iteration and fail through the degenerate-channel
check. -/
theorem C3_zero_extinction_walk {N : ℕ} [NeZero N] (env : Env N) (props : OpticalProps N)
    (hext : ∀ i, props.extinction i = 0) (hscat : ∀ i, props.scattering i = 0)
    (hvalid : (initial_hit env).valid = true) (hu1 : env.rng 3 < 1) :
    (0 < env.rng 3 →
      ∃ s, sample_outcome env props = some (WalkOutcome.exited s) ∧ s.nIteration = 0)
    ∧ (env.rng 3 = 0 →
      sample_outcome env props = some (WalkOutcome.lost_degenerate 1)) := by
  obtain ⟨s0, hi, htr, hn⟩ := init_state_some env props hvalid
  constructor
  · intro hu
    have hpinf := initial_distanceF_zero_ext_pos env props (hext _) hu hu1
    have htr2 : s0.transmitted = true := by rw [htr, hpinf]; exact rfl
    refine ⟨s0, ?_, hn⟩
    unfold sample_outcome
    rw [hi, Option.map_some', walk_loop_exited env props s0 htr2]
  · intro hu0
    have hnan := initial_distanceF_zero_ext_zero env props (hext _) hu0
    have htr2 : s0.transmitted = false := by rw [htr, hnan]; exact rfl
    have hn1 : step_n s0 = 1 := by rw [step_n, hn]
    have hstep : loop_step env props s0 = StepRes.fail (WalkOutcome.lost_degenerate 1) := by
      unfold loop_step
      rw [hn1]
      rw [if_neg (by norm_num)]
      rw [if_neg (by simp [step_rr_result, step_rr_engaged, hn1])]
      rw [if_pos (Or.inl (hscat _))]
    unfold sample_outcome
    rw [hi, Option.map_some', walk_loop_first_fail env props s0 htr2 _ hstep]

/-- Counterexample for C3 as stated: with zero extinction in all channels,
an initial trace that hits at distance 1, and the constant distance variate
1/2, sample succeeds (returns a result) with zero loop iterations, instead
of failing at iteration 1. -/
theorem C3_counterexample :
    ∃ r, sample (envConst (1 / 2)) propsZeroExt wTest = some r ∧ r.nIteration = 0 := by
  have hpinf := initial_distanceF_zero_ext_pos (envConst (1 / 2)) propsZeroExt rfl
    (by norm_num [envConst]) (by norm_num [envConst])
  obtain ⟨s0, hi, htr, hn⟩ := init_state_some (envConst (1 / 2)) propsZeroExt rfl
  have htr2 : s0.transmitted = true := by rw [htr, hpinf]; exact rfl
  refine ⟨⟨apply_scattering_order_weights wTest s0.nIteration (post_walk_value s0),
    s0.nIteration⟩, ?_, hn⟩
  unfold sample sample_outcome
  rw [hi, Option.map_some', walk_loop_exited _ _ s0 htr2]

/-- Witness for C3 (amended), applied to the concrete zero-extinction
environment with distance variate 1/2. -/
theorem C3_zero_extinction_walk_witness :
    ∃ s, sample_outcome (envConst (1 / 2)) propsZeroExt = some (WalkOutcome.exited s)
      ∧ s.nIteration = 0 :=
  (C3_zero_extinction_walk (envConst (1 / 2)) propsZeroExt (fun _ => rfl) (fun _ => rfl)
    rfl (by norm_num [envConst])).1 (by norm_num [envConst])

/-!
Claim C1: the scattering-order weighting.
-/

/-- In the standard single-channel medium with distance variate
1 - exp(-1), the initial distance is exactly 1 and equals the chord length,
so the walk exits on the initial segment with unit throughput. -/
theorem env1_exit :
    ∃ s0, init_state (envConst (1 - Real.exp (-1))) propsStd = some s0
      ∧ s0.transmitted = true ∧ s0.nIteration = 0 ∧ ∀ i, s0.value i = 1 := by
  have hdistF : initial_distanceF (envConst (1 - Real.exp (-1))) propsStd = FVal.fin 1 := by
    unfold initial_distanceF sampleExpDistF fdiv
    rw [show propsStd.extinction (initial_channel (envConst (1 - Real.exp (-1)))) = 1 from rfl]
    rw [if_neg one_ne_zero]
    rw [show (envConst (1 - Real.exp (-1))).rng 3 = 1 - Real.exp (-1) from rfl]
    rw [show (1 : ℝ) - (1 - Real.exp (-1)) = Real.exp (-1) by ring]
    rw [Real.log_exp]
    norm_num
  obtain ⟨s0, hi, htr, hn, hv, _⟩ := init_state_fields (envConst (1 - Real.exp (-1))) propsStd
    rfl (fun _ => by norm_num [propsStd])
  have htr2 : s0.transmitted = true := by
    rw [htr, hdistF]
    rw [show (initial_hit (envConst (1 - Real.exp (-1)))).dist = 1 from rfl]
    norm_num [leF]
  exact ⟨s0, hi, htr2, hn, hv⟩

/-- C1.  Evaluation of the code at the failing input: a walk of exactly one
traced segment (the initial trace exits, n_iteration = 0) with unit
post-clamp throughput and the weights zero 1/2, single 1/3, multiple 1/4 is
multiplied by the multiple-scattering weight alone, producing 1/4, which
differs from the claim's policy (exactly one weight selected by walk
length: one segment takes the zero-scattering weight 1/2). -/
theorem C1_weight_dangling_else_eval :
    ∃ r, sample (envConst (1 - Real.exp (-1))) propsStd wTest = some r
      ∧ r.nIteration = 0
      ∧ r.value 0 = wTest.multiple_scattering_weight
      ∧ r.value 0 ≠ claim_order_weight wTest (r.nIteration + 1) := by
  obtain ⟨s0, hi, htr2, hn, hv⟩ := env1_exit
  have hpw : post_walk_value s0 0 = 1 := by
    unfold post_walk_value
    rw [hv 0]
    norm_num [clamp]
  have happ : apply_scattering_order_weights wTest s0.nIteration (post_walk_value s0) 0
      = 1 / 4 := by
    rw [hn]
    unfold apply_scattering_order_weights
    norm_num [hpw, wTest]
  refine ⟨⟨apply_scattering_order_weights wTest s0.nIteration (post_walk_value s0),
    s0.nIteration⟩, ?_, hn, ?_, ?_⟩
  · unfold sample sample_outcome
    rw [hi, Option.map_some', walk_loop_exited _ _ s0 htr2]
  · rw [show wTest.multiple_scattering_weight = 1 / 4 from rfl]
    exact happ
  · show apply_scattering_order_weights wTest s0.nIteration (post_walk_value s0) 0
      ≠ claim_order_weight wTest (s0.nIteration + 1)
    rw [happ, hn]
    norm_num [claim_order_weight, wTest]

/-- Witness for C9, applied to the concrete successful one-segment walk. -/
theorem C9_clamp_invariant_witness :
    0 ≤ post_walk_value ((init_state (envConst (1 - Real.exp (-1))) propsStd).getD dummyState) 0
    ∧ post_walk_value
        ((init_state (envConst (1 - Real.exp (-1))) propsStd).getD dummyState) 0 ≤ 2 := by
  obtain ⟨s0, hi, htr2, hn, hv⟩ := env1_exit
  have hgd : (init_state (envConst (1 - Real.exp (-1))) propsStd).getD dummyState = s0 := by
    rw [hi]
    rfl
  have houtcome : sample_outcome (envConst (1 - Real.exp (-1))) propsStd
      = some (WalkOutcome.exited
          ((init_state (envConst (1 - Real.exp (-1))) propsStd).getD dummyState)) := by
    rw [hgd]
    unfold sample_outcome
    rw [hi, Option.map_some', walk_loop_exited _ _ s0 htr2]
  exact C9_clamp_invariant (envConst (1 - Real.exp (-1))) propsStd _ houtcome 0

/-!
Claim C2: the combined MIS density applied after every traced loop segment.
-/

/-- The classical MIS density in closed channel-sum form. -/
def classical_mis_density (d : ℝ) (ext pdf : Fin N → ℝ) (tr : Bool) : ℝ :=
  ∑ i, Real.exp (-(d * ext i)) * (if tr then 1 else ext i) * pdf i

/-- A Dwivedi MIS density in closed channel-sum form: the channel-pdf
weighted sum of the effective-extinction exponential distance density (the
extinction factor dropped when the segment terminated at a surface) times
the Dwivedi directional density, normalized by 4 pi; the cosine entering
the effective extinction is an explicit argument. -/
def dwivedi_mis_density (env : Env N) (d : ℝ) (ext kap : Fin N → ℝ) (c : ℝ)
    (pdf : Fin N → ℝ) (tr : Bool) (nrm inc : Vec3) : ℝ :=
  (∑ i, (if tr then 1 else ext i * (1 - c * kap i))
      * Real.exp (-(d * (ext i * (1 - c * kap i))))
      * env.dwivedi_eval (rcp (kap i)) nrm inc * pdf i) * (4 * Real.pi)

/-- The code's Dwivedi MIS function computes the closed-form density. -/
theorem compute_mis_dwivedi_sampling_density (env : Env N) (d : ℝ) (ext kap : Fin N → ℝ)
    (c : ℝ) (pdf : Fin N → ℝ) (tr : Bool) (nrm inc : Vec3) :
    compute_mis_dwivedi_sampling env d ext kap c pdf tr nrm inc
      = dwivedi_mis_density env d ext kap c pdf tr nrm inc := by
  rw [compute_mis_dwivedi_sampling_eq]
  rfl

/-- The code's classical MIS function computes the closed-form density. -/
theorem compute_transmission_classical_sampling_density (d : ℝ) (ext pdf : Fin N → ℝ)
    (tr : Bool) :
    (compute_transmission_classical_sampling d ext pdf tr).2
      = classical_mis_density d ext pdf tr := by
  rw [compute_transmission_classical_sampling_mis]
  rfl

/-- C2 (amended).  After every traced loop segment the throughput is
multiplied by the albedo and the per-channel transmission and divided by
the combined MIS density: the near and far Dwivedi densities (each the
channel-pdf-weighted sum of the effective-extinction exponential distance
density, the extinction factor dropped on surface termination, times the
Dwivedi directional density times 4 pi) are interpolated with the bias
strategy probability and mixed with the classical density at the fixed
classical probability 0.1 — where the cosine inside the effective
extinction is the single cosine against the pre-selected slab normal for
BOTH the near and the far density; only the directional density
distinguishes them. -/
theorem C2_mis_combination {N : ℕ} [NeZero N] (env : Env N) (props : OpticalProps N)
    (s s2 : LoopState N) (h : loop_step env props s = StepRes.next s2) (i : Fin N) :
    s2.value i = step_value0 env s i * props.albedo i *
      (Real.exp (-(step_distance env props s * props.extinction i))
        * (if step_transmitted env props s then 1 else props.extinction i)
        * (mix (mix
              (dwivedi_mis_density env (step_distance env props s) props.extinction
                props.rcp_diffusion_length (step_cosine env props s) (step_pdf env s)
                (step_transmitted env props s) s.far_slab_normal (step_incoming env props s))
              (dwivedi_mis_density env (step_distance env props s) props.extinction
                props.rcp_diffusion_length (step_cosine env props s) (step_pdf env s)
                (step_transmitted env props s) s.near_slab_normal (step_incoming env props s))
              s.bias_strategy_prob)
            (classical_mis_density (step_distance env props s) props.extinction
              (step_pdf env s) (step_transmitted env props s))
            classical_sampling_prob)⁻¹) := by
  rw [loop_step_next_value env props s s2 h i]
  unfold step_transmission step_mis_denom step_mis_dwivedi_far step_mis_dwivedi_near
    step_mis_classical
  rw [compute_transmission_classical_sampling_transmission]
  rw [compute_mis_dwivedi_sampling_density, compute_mis_dwivedi_sampling_density,
    compute_transmission_classical_sampling_density]
  unfold rcp
  rw [one_div]

/-- Extraction of the next state of a loop iteration. -/
def step_next_getD [NeZero N] (env : Env N) (props : OpticalProps N) (s : LoopState N) :
    LoopState N :=
  match loop_step env props s with
  | StepRes.next s2 => s2
  | _ => s

/-- The extraction agrees with any established next state. -/
theorem step_next_getD_eq [NeZero N] (env : Env N) (props : OpticalProps N)
    (s t : LoopState N) (h : loop_step env props s = StepRes.next t) :
    step_next_getD env props s = t := by
  unfold step_next_getD
  rw [h]

/-- Witness for C2, applied to the concrete iteration of the loop body used
for claim C6: the unit state of the standard medium under the constant-zero
stream. -/
theorem C2_mis_combination_witness :
    (step_next_getD (envConst 0) propsStd stateUnit).value 0
      = step_value0 (envConst 0) stateUnit 0 * propsStd.albedo 0 *
        (Real.exp (-(step_distance (envConst 0) propsStd stateUnit * propsStd.extinction 0))
          * (if step_transmitted (envConst 0) propsStd stateUnit then 1
              else propsStd.extinction 0)
          * (mix (mix
                (dwivedi_mis_density (envConst 0) (step_distance (envConst 0) propsStd stateUnit)
                  propsStd.extinction propsStd.rcp_diffusion_length
                  (step_cosine (envConst 0) propsStd stateUnit)
                  (step_pdf (envConst 0) stateUnit)
                  (step_transmitted (envConst 0) propsStd stateUnit)
                  stateUnit.far_slab_normal (step_incoming (envConst 0) propsStd stateUnit))
                (dwivedi_mis_density (envConst 0) (step_distance (envConst 0) propsStd stateUnit)
                  propsStd.extinction propsStd.rcp_diffusion_length
                  (step_cosine (envConst 0) propsStd stateUnit)
                  (step_pdf (envConst 0) stateUnit)
                  (step_transmitted (envConst 0) propsStd stateUnit)
                  stateUnit.near_slab_normal (step_incoming (envConst 0) propsStd stateUnit))
                stateUnit.bias_strategy_prob)
              (classical_mis_density (step_distance (envConst 0) propsStd stateUnit)
                propsStd.extinction (step_pdf (envConst 0) stateUnit)
                (step_transmitted (envConst 0) propsStd stateUnit))
              classical_sampling_prob)⁻¹) := by
  obtain ⟨s2x, hs⟩ := envConst0_step_next
  rw [step_next_getD_eq (envConst 0) propsStd stateUnit s2x hs]
  exact C2_mis_combination (envConst 0) propsStd stateUnit s2x hs 0

/-- The throughput update predicted by claim C2 as stated: the same
combination, but with the cosine of the effective extinction taken against
the near-side and far-side slab normal respectively. -/
def claim_step_value [NeZero N] (env : Env N) (props : OpticalProps N) (s : LoopState N)
    (i : Fin N) : ℝ :=
  step_value0 env s i * props.albedo i *
    (Real.exp (-(step_distance env props s * props.extinction i))
      * (if step_transmitted env props s then 1 else props.extinction i)
      * (mix (mix
            (dwivedi_mis_density env (step_distance env props s) props.extinction
              props.rcp_diffusion_length
              (Vec3.dot (step_incoming env props s) s.far_slab_normal) (step_pdf env s)
              (step_transmitted env props s) s.far_slab_normal (step_incoming env props s))
            (dwivedi_mis_density env (step_distance env props s) props.extinction
              props.rcp_diffusion_length
              (Vec3.dot (step_incoming env props s) s.near_slab_normal) (step_pdf env s)
              (step_transmitted env props s) s.near_slab_normal (step_incoming env props s))
            s.bias_strategy_prob)
          (classical_mis_density (step_distance env props s) props.extinction (step_pdf env s)
            (step_transmitted env props s))
          classical_sampling_prob)⁻¹)

/-- A single-channel environment whose initial chord has length 2 with
entry normal (1,0,0) and far hit normal (0,0,-1), whose distance variates
make both the initial and the in-loop free flights have length exactly 1,
whose strategy variate selects Dwivedi sampling, and whose loop trace
misses; the Dwivedi sampler returns (0,0,1) and the phase density is the
constant 1. -/
def env2 : Env 1 where
  rng := fun k => if k = 5 then 1 / 2 else if k = 3 ∨ k = 8 then 1 - Real.exp (-1) else 0.3
  hemisphere_cosine := fun _ => ⟨0, 0, 1⟩
  basis_transform := id
  trace_initial := fun _ => ⟨true, 2, ⟨0, 0, -1⟩⟩
  trace := fun _ _ _ _ => ⟨false, 1, ⟨0, 0, 1⟩⟩
  sphere_uniform := fun _ => ⟨0, 0, 1⟩
  dwivedi_sample := fun _ _ _ => ⟨0, 0, 1⟩
  dwivedi_eval := fun _ _ _ => 1
  outgoing_point := ⟨0, 0, 0⟩
  outgoing_normal := ⟨1, 0, 0⟩

/-- The channel pdf of the unit single-channel spectrum is the constant 1. -/
theorem channelPdf_one : channelPdf (fun _ : Fin 1 => (1 : ℝ)) = fun _ => 1 := by
  funext j
  simp [channelPdf]

/-- Linear interpolation of equal endpoints. -/
theorem mix_self (a t : ℝ) : mix a a t = a := by
  unfold mix
  ring

/-- The two combined MIS densities compared by the C2 counterexample are
different real numbers. -/
theorem c2_denoms_ne :
    mix (Real.exp (-1) * (4 * Real.pi)) (Real.exp (-1)) classical_sampling_prob
      ≠ mix (mix (1 / 2 * Real.exp (-(1 / 2)) * (4 * Real.pi))
          (Real.exp (-1) * (4 * Real.pi)) (Real.exp (-1)))
        (Real.exp (-1)) classical_sampling_prob := by
  intro heq
  unfold mix classical_sampling_prob at heq
  set u := Real.exp (-(1 / 2) : ℝ) with hu
  have hu1 : u < 1 := by
    rw [hu]
    exact Real.exp_lt_one_iff.2 (by norm_num)
  have hupos : 0 < u := by
    rw [hu]
    exact Real.exp_pos _
  have hu0 : 1 / 2 < u := by
    rw [hu]
    have hlog : Real.log (1 / 2) < -(1 / 2) := by
      rw [one_div, Real.log_inv]
      have := Real.log_two_gt_d9
      linarith
    calc (1 : ℝ) / 2 = Real.exp (Real.log (1 / 2)) := (Real.exp_log (by norm_num)).symm
      _ < Real.exp (-(1 / 2)) := Real.exp_lt_exp.2 hlog
  have h2 : Real.exp (-(1 : ℝ)) = u * u := by
    rw [hu, ← Real.exp_add]
    norm_num
  rw [h2] at heq
  have hpi := Real.pi_gt_three
  have hX : 0 < u * (u - 1 / 2) * (1 - u * u) := by
    refine mul_pos (mul_pos hupos (by linarith)) ?_
    nlinarith
  nlinarith [heq, hX, mul_pos (by linarith : (0 : ℝ) < Real.pi) hX]

/-- The initial distance of the env2 walk is exactly 1. -/
theorem env2_distF : initial_distanceF env2 propsStd = FVal.fin 1 := by
  unfold initial_distanceF sampleExpDistF fdiv
  rw [show propsStd.extinction (initial_channel env2) = 1 from rfl]
  rw [if_neg one_ne_zero]
  rw [show env2.rng 3 = 1 - Real.exp (-1) from by norm_num [env2]]
  rw [show (1 : ℝ) - (1 - Real.exp (-1)) = Real.exp (-1) by ring, Real.log_exp]
  norm_num

/-- Counterexample for C2 as stated: in the concrete env2 walk the slab
normal selected before the loop is the near-side normal, the step's cosine
is taken against it, and the resulting throughput differs from the value
predicted by the per-normal-cosine reading of the claim. -/
theorem C2_counterexample :
    ∃ s0 s2, init_state env2 propsStd = some s0
      ∧ loop_step env2 propsStd s0 = StepRes.next s2
      ∧ s2.value 0 ≠ claim_step_value env2 propsStd s0 0 := by
  obtain ⟨s0, hi, htr, hn, hv, hr4, hbiaseq, hneareq, hfareq, hslabeq, _, _⟩ :=
    init_state_fields env2 propsStd rfl (fun _ => by norm_num [propsStd])
  have hcloser : initial_closer env2 propsStd = false := by
    unfold initial_closer
    rw [env2_distF, show (initial_hit env2).dist = 2 from rfl]
    norm_num [ltF]
  have htr2 : s0.transmitted = false := by
    rw [htr, env2_distF, show (initial_hit env2).dist = 2 from rfl]
    norm_num [leF]
  have hslab : s0.slab_normal = Vec3.mk 1 0 0 := by
    rw [hslabeq, hcloser]
    rfl
  have hnear : s0.near_slab_normal = Vec3.mk 1 0 0 := by
    rw [hneareq]
    rfl
  have hfar : s0.far_slab_normal = Vec3.neg (Vec3.mk 0 0 (-1)) := by
    rw [hfareq]
    rfl
  have hbias : s0.bias_strategy_prob = Real.exp (-1) := by
    rw [hbiaseq, show propsStd.extinction (initial_channel env2) = 1 from rfl,
      show (initial_hit env2).dist = 2 from rfl]
    norm_num
  have hengaged : step_rr_engaged s0 = false := by
    simp [step_rr_engaged, step_n, hn]
  have hbase : step_rng_base s0 = 4 := by
    simp [step_rng_base, hengaged, hr4]
  have hv0 : step_value0 env2 s0 = s0.value := by
    simp [step_value0, step_rr_result, hengaged]
  have hvfun : s0.value = fun _ => 1 := funext hv
  have hpdf2 : step_pdf env2 s0 = fun _ => 1 := by
    unfold step_pdf
    rw [hv0, hvfun, channelPdf_one]
  have hbiased : step_is_biased env2 s0 = true := by
    unfold step_is_biased
    rw [hbase]
    norm_num [env2, classical_sampling_prob]
  have hinc : step_incoming env2 propsStd s0 = Vec3.mk 0 0 1 := by
    unfold step_incoming
    rw [if_pos hbiased]
    rfl
  have hcos : step_cosine env2 propsStd s0 = 0 := by
    unfold step_cosine
    rw [hinc, hslab]
    norm_num [Vec3.dot]
  have heff : step_effective_extinction env2 propsStd s0 = 1 := by
    unfold step_effective_extinction
    rw [if_pos hbiased, hcos]
    norm_num [propsStd]
  have hsd : step_sampled_distance env2 propsStd s0 = 1 := by
    unfold step_sampled_distance sampleExpDist
    rw [heff, hbase]
    rw [show env2.rng (4 + 4) = 1 - Real.exp (-1) from by norm_num [env2]]
    rw [show (1 : ℝ) - (1 - Real.exp (-1)) = Real.exp (-1) by ring, Real.log_exp]
    norm_num
  have htrn : step_transmitted env2 propsStd s0 = false := rfl
  have hd : step_distance env2 propsStd s0 = 1 := by
    unfold step_distance
    rw [htrn]
    simp only [Bool.false_eq_true, if_false]
    exact hsd
  have h64 : ¬64 < step_n s0 := by simp [step_n, hn]
  have hrrn : ¬(step_rr_result env2 s0).isNone = true := by
    simp [step_rr_result, hengaged]
  have hdeg : ¬(propsStd.scattering (step_channel env2 s0) = 0
      ∨ step_value0 env2 s0 (step_channel env2 s0) = 0) := by
    push_neg
    refine ⟨by norm_num [propsStd], ?_⟩
    rw [hv0, hvfun]
    norm_num
  have hstep : ∃ s2, loop_step env2 propsStd s0 = StepRes.next s2 := by
    unfold loop_step
    rw [if_neg h64, if_neg hrrn, if_neg hdeg]
    exact ⟨_, rfl⟩
  obtain ⟨s2, hs2⟩ := hstep
  have hdw : ∀ nrm, dwivedi_mis_density env2 1 propsStd.extinction
      propsStd.rcp_diffusion_length 0 (fun _ => 1) false nrm (Vec3.mk 0 0 1)
      = Real.exp (-1) * (4 * Real.pi) := by
    intro nrm
    unfold dwivedi_mis_density
    rw [Fin.sum_univ_one]
    norm_num [propsStd, env2, rcp]
  have hcl : classical_mis_density 1 propsStd.extinction (fun _ => 1) false
      = Real.exp (-1) := by
    unfold classical_mis_density
    rw [Fin.sum_univ_one]
    norm_num [propsStd]
  have hdwfar1 : dwivedi_mis_density env2 1 propsStd.extinction
      propsStd.rcp_diffusion_length 1 (fun _ => 1) false (Vec3.neg (Vec3.mk 0 0 (-1)))
      (Vec3.mk 0 0 1) = 1 / 2 * Real.exp (-(1 / 2)) * (4 * Real.pi) := by
    unfold dwivedi_mis_density
    rw [Fin.sum_univ_one]
    norm_num [propsStd, env2, rcp]
  have hcode : s2.value 0 = 1 / 2 * Real.exp (-1) *
      (mix (Real.exp (-1) * (4 * Real.pi)) (Real.exp (-1)) classical_sampling_prob)⁻¹ := by
    rw [loop_step_next_value env2 propsStd s0 s2 hs2 0]
    unfold step_transmission step_mis_denom step_mis_dwivedi_far step_mis_dwivedi_near
      step_mis_classical
    rw [compute_transmission_classical_sampling_transmission,
      compute_mis_dwivedi_sampling_density, compute_mis_dwivedi_sampling_density,
      compute_transmission_classical_sampling_density]
    rw [hd, htrn, hcos, hpdf2, hbias, hv0, hvfun, hinc]
    rw [hdw, hdw, hcl, mix_self]
    unfold rcp
    norm_num [propsStd]
    ring
  have hcosfar : Vec3.dot (Vec3.mk 0 0 1) (Vec3.neg (Vec3.mk 0 0 (-1))) = 1 := by
    norm_num [Vec3.dot, Vec3.neg]
  have hcosnear : Vec3.dot (Vec3.mk 0 0 1) (Vec3.mk 1 0 0) = 0 := by
    norm_num [Vec3.dot]
  have hclaim : claim_step_value env2 propsStd s0 0 = 1 / 2 * Real.exp (-1) *
      (mix (mix (1 / 2 * Real.exp (-(1 / 2)) * (4 * Real.pi))
          (Real.exp (-1) * (4 * Real.pi)) (Real.exp (-1)))
        (Real.exp (-1)) classical_sampling_prob)⁻¹ := by
    unfold claim_step_value
    rw [hd, htrn, hpdf2, hbias, hv0, hvfun, hinc, hfar, hnear]
    rw [hcosfar, hcosnear]
    rw [hdwfar1, hdw, hcl]
    norm_num [propsStd]
    ring
  refine ⟨s0, s2, hi, hs2, ?_⟩
  rw [hcode, hclaim]
  intro heq
  have hA : (1 : ℝ) / 2 * Real.exp (-1) ≠ 0 := by positivity
  exact c2_denoms_ne (inv_injective (mul_left_cancel₀ hA heq))

end

end RandomWalk
